import Mathlib

/-!
# psadwatchd: retry ledger, process monitor, launcher and config reload

A shallow embedding of `src/psadwatchd.c`.  C strings are lists of characters
(the bytes before the terminating NUL), the three `short int` failure counters
are integers stored modulo 2^16 (two's complement), `unsigned int` values are
natural numbers, and the effects of the program (mail alerts, `execve`,
`exit`) are recorded in a trace carried by the state.

`psad.h` is not part of the sources read here, so the constants it defines
(`MAX_MSG_LEN`, `MAX_ARG_LEN`, `HOSTNAME`) are parameters, gathered in `Header`.
-/

namespace Psadwatchd

/-- A C string: the characters stored before the terminating NUL. -/
abbrev CStr := List Char

/-- The constants of `psad.h` used by the functions embedded below. -/
structure Header where
  MAX_MSG_LEN : Nat
  MAX_ARG_LEN : Nat
  HOSTNAME : CStr

/-- The value of `EXIT_FAILURE` in `<stdlib.h>`. -/
def EXIT_FAILURE : Nat := 1

/-- Storing an `int` into a `short int`: reduction modulo 2^16 into
`-32768 .. 32767`. -/
def to_short (x : Int) : Int := (x + 32768) % 65536 - 32768

/-- Conversion of a (promoted) `short int` to `unsigned int`, as done by the
usual arithmetic conversions in `ctr >= max_retries`. -/
def to_unsigned (x : Int) : Nat := (x % 4294967296).toNat

/-- The BSD `strlcat(dst, src, size)`: append `src` to `dst`, keeping the
result shorter than `size`; a `dst` that already fills the buffer is left
alone. -/
def strlcat (dst src : CStr) (size : Nat) : CStr :=
  dst ++ src.take (size - 1 - dst.length)

/-- The BSD `strlcpy(dst, src, size)`: the first `size - 1` characters of
`src`. -/
def strlcpy (src : CStr) (size : Nat) : CStr := src.take (size - 1)

/-- The global `mail_redr`. -/
def mail_redr : CStr := " < /dev/null > /dev/null 2>&1".toList

/-- The observable effects of the watchdog, in the order they happen. -/
inductive Event
  | send_alert_email (shCmd mailCmd mail_str : CStr)
  | execve (binary : CStr) (prog_argv : List CStr)
  deriving DecidableEq, Repr

/-- Ways in which `exec_binary` leaves defined behaviour. -/
inductive Fault
  | overread
  | argv_overflow
  | out_of_fuel
  deriving DecidableEq, Repr

/-- Whether the watchdog process is still running. -/
inductive Status
  | running
  | exited (code : Nat)
  | undefined (f : Fault)
  deriving DecidableEq, Repr

/-- The global variables of `psadwatchd.c`, the trace of effects so far and
the process status. -/
structure World where
  psad_syscalls_ctr : Int
  kmsgsd_syscalls_ctr : Int
  diskmond_syscalls_ctr : Int
  mail_addrs : CStr
  shCmd : CStr
  mailCmd : CStr
  trace : List Event
  status : Status
  deriving DecidableEq, Repr

/-- Statement sequencing: the rest of a function body runs only while the
process has not exited. -/
def World.andThen (w : World) (f : World → World) : World :=
  match w.status with
  | .running => f w
  | _ => w

/-- The mail string built by `give_up` (lines 342-348). -/
def give_up_mail_str (K : Header) (pid_name mail_addrs : CStr) : CStr :=
  let m0 : CStr := []
  let m1 := strlcat m0 " -s \"** psadwatchd: Could not restart ".toList K.MAX_MSG_LEN
  let m2 := strlcat m1 pid_name K.MAX_MSG_LEN
  let m3 := strlcat m2 " on ".toList K.MAX_MSG_LEN
  let m4 := strlcat m3 K.HOSTNAME K.MAX_MSG_LEN
  let m5 := strlcat m4 ".  Exiting.\" ".toList K.MAX_MSG_LEN
  let m6 := strlcat m5 mail_addrs K.MAX_MSG_LEN
  strlcat m6 mail_redr K.MAX_MSG_LEN

/-- The function `give_up`: send the give-up mail, then `exit(EXIT_FAILURE)`. -/
def give_up (K : Header) (pid_name : CStr) (w : World) : World :=
  { w with
    trace := w.trace ++
      [Event.send_alert_email w.shCmd w.mailCmd (give_up_mail_str K pid_name w.mail_addrs)]
    status := Status.exited EXIT_FAILURE }

/-- The function `incr_syscall_ctr`. -/
def incr_syscall_ctr (K : Header) (pid_name : CStr) (max_retries : Nat) (w : World) : World :=
  if pid_name = "psad".toList then
    let w1 := { w with psad_syscalls_ctr := to_short (w.psad_syscalls_ctr + 1) }
    if to_unsigned w1.psad_syscalls_ctr ≥ max_retries then give_up K pid_name w1 else w1
  else if pid_name = "diskmond".toList then
    let w1 := { w with diskmond_syscalls_ctr := to_short (w.diskmond_syscalls_ctr + 1) }
    if to_unsigned w1.diskmond_syscalls_ctr ≥ max_retries then give_up K pid_name w1 else w1
  else if pid_name = "kmsgsd".toList then
    let w1 := { w with kmsgsd_syscalls_ctr := to_short (w.kmsgsd_syscalls_ctr + 1) }
    if to_unsigned w1.kmsgsd_syscalls_ctr ≥ max_retries then give_up K pid_name w1 else w1
  else w

/-- The function `reset_syscall_ctr`. -/
def reset_syscall_ctr (pid_name : CStr) (w : World) : World :=
  if pid_name = "psad".toList then { w with psad_syscalls_ctr := 0 }
  else if pid_name = "diskmond".toList then { w with diskmond_syscalls_ctr := 0 }
  else if pid_name = "kmsgsd".toList then { w with kmsgsd_syscalls_ctr := 0 }
  else w

/-- The counter that belongs to a process name (0 for a name without one). -/
def World.ctr (w : World) (pid_name : CStr) : Int :=
  if pid_name = "psad".toList then w.psad_syscalls_ctr
  else if pid_name = "diskmond".toList then w.diskmond_syscalls_ctr
  else if pid_name = "kmsgsd".toList then w.kmsgsd_syscalls_ctr
  else 0

/-- The three process names checked by the main loop. -/
def monitored (pid_name : CStr) : Prop :=
  pid_name = "psad".toList ∨ pid_name = "kmsgsd".toList ∨ pid_name = "diskmond".toList

instance (pid_name : CStr) : Decidable (monitored pid_name) := by
  unfold monitored; infer_instance

deriving instance DecidableEq for Except

/-- What `fopen(path, "r")` followed by one `fgets` yields. -/
inductive FileRead
  | cannot_open
  | no_line
  | line (buf : CStr)
  deriving DecidableEq, Repr

/-- The loop `while (*index == ' ' || *index == '\t') index++;`.  The list is
the part of the buffer from `index` up to the terminating NUL, so the empty
list stands for `*index == '\0'`. -/
def skip_whitespace : CStr → CStr
  | [] => []
  | c :: cs => if c = ' ' ∨ c = '\t' then skip_whitespace cs else c :: cs

/-- The inner loop of the tokenizer (lines 390-394),
`while (*index != ' ' && *index != '\t' && index != '\0' && *index != '\n')`,
returning the `non_ws` characters passed over and the rest of the buffer.
The third test compares the pointer itself with 0, which is never the case,
so the terminating NUL does not stop the loop: at the end of the string the
loop steps over the NUL and reads on behind it, which is `none` here. -/
def scan_non_ws : CStr → Option (CStr × CStr)
  | [] => none
  | c :: cs =>
    if c = ' ' ∨ c = '\t' ∨ c = '\n' then some ([], c :: cs)
    else match scan_non_ws cs with
      | none => none
      | some (tok, rest) => some (c :: tok, rest)

/-- The C string held by a byte sequence that gets a NUL appended: the bytes
before the first NUL. -/
def c_string (bytes : CStr) : CStr := bytes.takeWhile (fun c => c ≠ '\x00')

/-- The outer loop of the tokenizer (lines 388-407),
`while (*index != '\n' && *index != '\0')`.  `prog_argv` holds the entries
stored so far, so `arg_num` is its length; a store at an index that is not
below `MAX_ARG_LEN` is outside the array. -/
def tokenize_loop (MAX_ARG_LEN : Nat) : Nat → CStr → List CStr → Except Fault (List CStr)
  | 0, _, _ => .error .out_of_fuel
  | _ + 1, [], prog_argv => .ok prog_argv
  | fuel + 1, c :: cs, prog_argv =>
    if c = '\n' ∨ c = '\x00' then .ok prog_argv
    else match scan_non_ws (c :: cs) with
      | none => .error .overread
      | some (tok, rest) =>
        if prog_argv.length < MAX_ARG_LEN then
          tokenize_loop MAX_ARG_LEN fuel (skip_whitespace rest) (prog_argv ++ [c_string tok])
        else .error .argv_overflow

/-- The argument vector built by `exec_binary` (lines 364-414) from the binary
path and, when a command-line file is given, the line `fgets` read from it.
The result lists `prog_argv[0 .. arg_num - 1]`; the closing NULL is stored at
`prog_argv[arg_num]`. -/
def exec_binary_argv (K : Header) (binary : CStr) (cmdline_buf : Option CStr) :
    Except Fault (List CStr) :=
  if 0 < K.MAX_ARG_LEN then
    let prog_argv := [strlcpy binary K.MAX_ARG_LEN]
    let filled : Except Fault (List CStr) :=
      match cmdline_buf with
      | none => .ok prog_argv
      | some buf =>
        tokenize_loop K.MAX_ARG_LEN (buf.length + 1) (skip_whitespace buf) prog_argv
    match filled with
    | .error f => .error f
    | .ok argv => if argv.length < K.MAX_ARG_LEN then .ok argv else .error .argv_overflow
  else .error .argv_overflow

/-- The function `exec_binary`, as seen from the watchdog (the parent of the
`fork`): `cmdlinefile` is `none` for a NULL pointer and otherwise what
reading the file gives; `fork_ok` says whether `fork` succeeds.  The
`execve` of the child is recorded in the trace; the child itself is not
followed, `malloc` is taken to succeed, and the parent returns once `wait`
does. -/
def exec_binary (K : Header) (binary : CStr) (cmdlinefile : Option FileRead)
    (fork_ok : Bool) (w : World) : World :=
  if 0 < K.MAX_ARG_LEN then
    match cmdlinefile with
    | some .cannot_open => { w with status := Status.exited EXIT_FAILURE }
    | some .no_line => { w with status := Status.exited EXIT_FAILURE }
    | cmdlinefile =>
      let cmdline_buf := match cmdlinefile with
        | some (.line buf) => some buf
        | _ => none
      match exec_binary_argv K binary cmdline_buf with
      | .error f => { w with status := Status.undefined f }
      | .ok prog_argv =>
        if fork_ok then { w with trace := w.trace ++ [Event.execve binary prog_argv] }
        else { w with status := Status.exited EXIT_FAILURE }
  else { w with status := Status.undefined Fault.argv_overflow }

/-- The C `isspace` in the "C" locale. -/
def isspace (c : Char) : Bool :=
  c = ' ' ∨ c = '\t' ∨ c = '\n' ∨ c = '\x0b' ∨ c = '\x0c' ∨ c = '\r'

/-- The digits read by `atoi`, most significant first. -/
def atoi_digits : CStr → Int → Int
  | [], acc => acc
  | c :: cs, acc =>
    if c.isDigit then atoi_digits cs (acc * 10 + ((c.toNat : Int) - 48)) else acc

/-- The value of `LONG_MAX` where `long` has 64 bits. -/
def LONG_MAX : Int := 9223372036854775807

/-- The value of `LONG_MIN` where `long` has 64 bits. -/
def LONG_MIN : Int := -9223372036854775808

/-- Conversion of a `long` to `int`: the low 32 bits, in `-2^31 .. 2^31 - 1`. -/
def to_int (x : Int) : Int := (x + 2147483648) % 4294967296 - 2147483648

/-- The C `strtol(s, NULL, 10)`: leading white space, an optional sign, then
decimal digits; 0 when there is no digit; a value outside `long` is replaced
by `LONG_MAX` or `LONG_MIN`. -/
def strtol (s : CStr) : Int :=
  let value : Int :=
    match s.dropWhile isspace with
    | '-' :: r => - atoi_digits r 0
    | '+' :: r => atoi_digits r 0
    | r => atoi_digits r 0
  if LONG_MAX < value then LONG_MAX else if value < LONG_MIN then LONG_MIN else value

/-- The C `atoi`, computed as the C library does, `(int) strtol(s, NULL, 10)`:
for a digit string that fits `int` it is the number written, and a string
that does not fit is cut as `strtol` and the conversion to `int` cut it. -/
def atoi (s : CStr) : Int := to_int (strtol s)

/-- The mail string built when the pid file cannot be opened (lines 224-230). -/
def mail_str_no_pid_file (K : Header) (pid_name mail_addrs : CStr) : CStr :=
  let m0 : CStr := []
  let m1 := strlcat m0 " -s \" ** psadwatchd: Restarting ".toList K.MAX_MSG_LEN
  let m2 := strlcat m1 pid_name K.MAX_MSG_LEN
  let m3 := strlcat m2 " on ".toList K.MAX_MSG_LEN
  let m4 := strlcat m3 K.HOSTNAME K.MAX_MSG_LEN
  let m5 := strlcat m4 "\" ".toList K.MAX_MSG_LEN
  let m6 := strlcat m5 mail_addrs K.MAX_MSG_LEN
  strlcat m6 mail_redr K.MAX_MSG_LEN

/-- The mail string built when `kill(pid, 0)` fails (lines 266-272). -/
def mail_str_not_running (K : Header) (pid_name mail_addrs : CStr) : CStr :=
  let m0 : CStr := []
  let m1 := strlcat m0 " -s \" ** psadwatchd: Restarting ".toList K.MAX_MSG_LEN
  let m2 := strlcat m1 pid_name K.MAX_MSG_LEN
  let m3 := strlcat m2 " on ".toList K.MAX_MSG_LEN
  let m4 := strlcat m3 K.HOSTNAME K.MAX_MSG_LEN
  let m5 := strlcat m4 "\" ".toList K.MAX_MSG_LEN
  let m6 := strlcat m5 mail_addrs K.MAX_MSG_LEN
  strlcat m6 mail_redr K.MAX_MSG_LEN

/-- Modelled from the spec: `send_alert_email(shCmd, mailCmd, mail_str)` is
defined in another file of psad and is missing from the sources read here.
The specification says that the core "hands this composed command off to an
external invocation mechanism; delivery success/failure is not observed or
retried by the core": the call is recorded in the trace and returns. -/
def send_alert_email (mail_str : CStr) (w : World) : World :=
  { w with trace := w.trace ++ [Event.send_alert_email w.shCmd w.mailCmd mail_str] }

/-- What the system answers during one call of `check_process`: the result of
reading the pid file, whether `kill(pid, 0)` returns 0, the result of reading
the command-line file, and whether `fork` succeeds in `exec_binary`. -/
structure Sys where
  pid_file : FileRead
  kill_ok : Int → Bool
  cmdline_file : FileRead
  fork_ok : Bool

/-- The function `check_process`.  `cmdline_file` is `none` for a NULL
pointer and otherwise the path of the command-line file. -/
def check_process (K : Header) (sys : Sys) (pid_name : CStr) (cmdline_file : Option CStr)
    (binary_path : CStr) (max_retries : Nat) (w : World) : World :=
  match sys.pid_file with
  | .cannot_open =>
    ((send_alert_email (mail_str_no_pid_file K pid_name w.mail_addrs) w).andThen
      (exec_binary K binary_path (cmdline_file.map (fun _ => sys.cmdline_file)) sys.fork_ok)).andThen
      (incr_syscall_ctr K pid_name max_retries)
  | .no_line => w
  | .line pid_line =>
    let pid := atoi pid_line
    if sys.kill_ok pid = false then
      ((send_alert_email (mail_str_not_running K pid_name w.mail_addrs) w).andThen
        (exec_binary K binary_path (cmdline_file.map (fun _ => sys.cmdline_file))
          sys.fork_ok)).andThen
        (incr_syscall_ctr K pid_name max_retries)
    else reset_syscall_ctr pid_name w

/-- A run of consecutive `check_process` calls for one process, one per tick,
each with the answers of the system at that time; nothing runs once the
watchdog has exited. -/
def run_checks (K : Header) (pid_name : CStr) (cmdline_file : Option CStr)
    (binary_path : CStr) (max_retries : Nat) : List Sys → World → World
  | [], w => w
  | sys :: rest, w =>
    run_checks K pid_name cmdline_file binary_path max_retries rest
      (w.andThen (check_process K sys pid_name cmdline_file binary_path max_retries))

/-- The check finds the process dead: the pid file cannot be opened, or its
line is read and the probe `kill(pid, 0)` fails. -/
def Sys.finds_dead (sys : Sys) : Prop :=
  sys.pid_file = FileRead.cannot_open ∨
    ∃ l, sys.pid_file = FileRead.line l ∧ sys.kill_ok (atoi l) = false

/-- The call `exec_binary(binary, cmdlinefile)` returns to its caller after
spawning `binary` with the argument vector `argv`. -/
def spawns (K : Header) (binary : CStr) (cmdlinefile : Option FileRead) (fork_ok : Bool)
    (argv : List CStr) : Prop :=
  ∀ w : World, exec_binary K binary cmdlinefile fork_ok w =
    { w with trace := w.trace ++ [Event.execve binary argv] }

/-- The restart made by a check returns to `check_process`. -/
def Sys.restart_returns (K : Header) (sys : Sys) (cmdline_file : Option CStr)
    (binary_path : CStr) : Prop :=
  ∃ argv, spawns K binary_path (cmdline_file.map (fun _ => sys.cmdline_file)) sys.fork_ok argv

/-- The state in which the counter of a monitored name holds `v`. -/
def World.set_ctr (w : World) (pid_name : CStr) (v : Int) : World :=
  if pid_name = "psad".toList then { w with psad_syscalls_ctr := v }
  else if pid_name = "diskmond".toList then { w with diskmond_syscalls_ctr := v }
  else if pid_name = "kmsgsd".toList then { w with kmsgsd_syscalls_ctr := v }
  else w

/-- A start state: all counters 0, nothing sent, running. -/
def World.init (mail_addrs shCmd mailCmd : CStr) : World :=
  { psad_syscalls_ctr := 0, kmsgsd_syscalls_ctr := 0, diskmond_syscalls_ctr := 0,
    mail_addrs := mail_addrs, shCmd := shCmd, mailCmd := mailCmd,
    trace := [], status := Status.running }

/-- White space between the arguments of a command line: space or tab. -/
def is_blank (c : Char) : Bool := c = ' ' || c = '\t'

/-- The text of a line before its newline. -/
def before_newline (line : CStr) : CStr := line.takeWhile (fun c => c != '\n')

/-- The pieces of a text between its blanks, empty pieces dropped: the
maximal runs of non-blank characters, in their original order. -/
def blank_separated (b : CStr) : List CStr :=
  (b.splitOnP is_blank).filter (fun t => t ≠ [])

/-- The arguments named by a command line, following the words of the
specification rather than the code: the line up to its newline is split at
every space and tab, and the empty pieces are dropped, which leaves the
maximal runs of non-space, non-tab characters in their original order. -/
def spec_tokens (line : CStr) : List CStr := blank_separated (before_newline line)

/-- The settings that `parse_config` fills in through its thirteen
out-parameters: the buffers of `main`, the globals `shCmd`, `mailCmd`,
`mail_addrs`, and the two numbers. -/
structure Settings where
  psadCmd : CStr
  psad_pid_file : CStr
  psad_cmdline_file : CStr
  kmsgsdCmd : CStr
  kmsgsd_pid_file : CStr
  diskmondCmd : CStr
  diskmond_pid_file : CStr
  shCmd : CStr
  mailCmd : CStr
  mail_addrs : CStr
  psadwatchd_pid_file : CStr
  psadwatchd_check_interval : Nat
  psadwatchd_max_retries : Nat
  deriving DecidableEq, Repr

/-- Modelled from the spec: `find_char_var(search_str, charvar, line)` is
defined in another file of psad and is missing from the sources read here.
The specification says of it: "extract a value by matching a known key prefix
followed by whitespace, copying the remainder up to line end into the
corresponding field".  A line that does not start with the key leaves the
field as it was. -/
def find_char_var (search_str charvar line : CStr) : CStr :=
  if line.take search_str.length = search_str then
    (skip_whitespace (line.drop search_str.length)).takeWhile (fun c => c != '\n')
  else charvar

/-- The variables written while `parse_config` reads the file: the settings
and the two local buffers `char_psadwatchd_check_interval` and
`char_psadwatchd_max_retries`. -/
structure ParseVars where
  cfg : Settings
  char_psadwatchd_check_interval : CStr
  char_psadwatchd_max_retries : CStr
  deriving DecidableEq, Repr

/-- The test of line 472 on `*index`, the first character after the leading
blanks (NUL at the end of the string):
`*index != '#' && *index != '\n' && *index != ';' && index != NULL`. -/
def is_config_line (index : CStr) : Bool :=
  index.headD '\x00' != '#' && index.headD '\x00' != '\n' && index.headD '\x00' != ';'

/-- The body of the `while` loop of `parse_config` (lines 463-490) for one
line `config_buf` returned by `fgets`. -/
def parse_config_line (config_buf : CStr) (v : ParseVars) : ParseVars :=
  let index := skip_whitespace config_buf
  if is_config_line index then
    { cfg :=
        { psadCmd := find_char_var "psadCmd ".toList v.cfg.psadCmd index
          psad_pid_file := find_char_var "PSAD_PID_FILE ".toList v.cfg.psad_pid_file index
          psad_cmdline_file :=
            find_char_var "PSAD_CMDLINE_FILE ".toList v.cfg.psad_cmdline_file index
          kmsgsdCmd := find_char_var "kmsgsdCmd ".toList v.cfg.kmsgsdCmd index
          kmsgsd_pid_file := find_char_var "KMSGSD_PID_FILE ".toList v.cfg.kmsgsd_pid_file index
          diskmondCmd := find_char_var "diskmondCmd ".toList v.cfg.diskmondCmd index
          diskmond_pid_file :=
            find_char_var "DISKMOND_PID_FILE ".toList v.cfg.diskmond_pid_file index
          shCmd := find_char_var "shCmd ".toList v.cfg.shCmd index
          mailCmd := find_char_var "mailCmd ".toList v.cfg.mailCmd index
          mail_addrs := find_char_var "EMAIL_ADDRESSES ".toList v.cfg.mail_addrs index
          psadwatchd_pid_file :=
            find_char_var "PSADWATCHD_PID_FILE ".toList v.cfg.psadwatchd_pid_file index
          psadwatchd_check_interval := v.cfg.psadwatchd_check_interval
          psadwatchd_max_retries := v.cfg.psadwatchd_max_retries }
      char_psadwatchd_check_interval :=
        find_char_var "PSADWATCHD_CHECK_INTERVAL ".toList v.char_psadwatchd_check_interval index
      char_psadwatchd_max_retries :=
        find_char_var "PSADWATCHD_MAX_RETRIES ".toList v.char_psadwatchd_max_retries index }
  else v

/-- The function `parse_config`.  `config_file` is `none` when `fopen` fails
(the function then calls `exit(EXIT_FAILURE)`, which is `none` here) and
otherwise the lines that the successive `fgets` calls return.  The two local
number buffers are not initialised in the source: what they hold on entry is
given by `stack_check_interval` and `stack_max_retries`.  The settings on
entry are what the out-parameters point to. -/
def parse_config (config_file : Option (List CStr))
    (stack_check_interval stack_max_retries : CStr) (cfg : Settings) : Option Settings :=
  match config_file with
  | none => none
  | some lines =>
    let v := lines.foldl (fun v config_buf => parse_config_line config_buf v)
      { cfg := cfg, char_psadwatchd_check_interval := stack_check_interval,
        char_psadwatchd_max_retries := stack_max_retries }
    some { v.cfg with
      psadwatchd_check_interval := to_unsigned (atoi v.char_psadwatchd_check_interval)
      psadwatchd_max_retries := to_unsigned (atoi v.char_psadwatchd_max_retries) }

/-- Modelled from the spec: `check_import_config(&config_mtime, config_file)`
is defined in another file of psad and is missing from the sources read here.
The specification says of it: "compares current file modification time to the
previously recorded one", the recorded time being "updated every time a
reload occurs".  `st_mtime` is the modification time of the file now. -/
def check_import_config (config_mtime st_mtime : Nat) : Bool × Nat :=
  if st_mtime ≠ config_mtime then (true, st_mtime) else (false, config_mtime)

/-- The reload step of the main loop (lines 174-196): the settings and the
recorded modification time after it, `none` when `parse_config` exits. -/
def reload_config (config_mtime st_mtime : Nat) (config_file : Option (List CStr))
    (stack_check_interval stack_max_retries : CStr) (cfg : Settings) :
    Option (Settings × Nat) :=
  match check_import_config config_mtime st_mtime with
  | (true, mtime) =>
    (parse_config config_file stack_check_interval stack_max_retries cfg).map
      (fun cfg1 => (cfg1, mtime))
  | (false, mtime) => some (cfg, mtime)

/-- The settings of `main` before the first `parse_config`: the two numbers
have their initialisers 5 and 10, the buffers hold what is given. -/
def Settings.at_startup (buffers : Settings) : Settings :=
  { buffers with psadwatchd_check_interval := 5, psadwatchd_max_retries := 10 }

/-- A line, once its leading blanks are skipped, is not a comment and starts
with the key `search_str`: `find_char_var` stores a value for that key. -/
def names_key (search_str config_buf : CStr) : Bool :=
  is_config_line (skip_whitespace config_buf) &&
    decide ((skip_whitespace config_buf).take search_str.length = search_str)

/-- What reading one line does to the buffer of one key. -/
def line_step (search_str : CStr) (val config_buf : CStr) : CStr :=
  if is_config_line (skip_whitespace config_buf) then
    find_char_var search_str val (skip_whitespace config_buf)
  else val

/-- The value of one buffer after all lines are read, starting from `old`. -/
def scan_key (search_str : CStr) (lines : List CStr) (old : CStr) : CStr :=
  lines.foldl (line_step search_str) old

/-- The eleven keys of the string settings, in the order of the fields. -/
def string_keys : List CStr :=
  ["psadCmd ".toList, "PSAD_PID_FILE ".toList, "PSAD_CMDLINE_FILE ".toList,
    "kmsgsdCmd ".toList, "KMSGSD_PID_FILE ".toList, "diskmondCmd ".toList,
    "DISKMOND_PID_FILE ".toList, "shCmd ".toList, "mailCmd ".toList,
    "EMAIL_ADDRESSES ".toList, "PSADWATCHD_PID_FILE ".toList]

/-- The eleven string settings, in the order of the fields. -/
def Settings.strings (c : Settings) : List CStr :=
  [c.psadCmd, c.psad_pid_file, c.psad_cmdline_file, c.kmsgsdCmd, c.kmsgsd_pid_file,
    c.diskmondCmd, c.diskmond_pid_file, c.shCmd, c.mailCmd, c.mail_addrs,
    c.psadwatchd_pid_file]

/-- Example settings: every buffer empty, the numbers at their initialisers. -/
def empty_settings : Settings :=
  { psadCmd := [], psad_pid_file := [], psad_cmdline_file := [], kmsgsdCmd := [],
    kmsgsd_pid_file := [], diskmondCmd := [], diskmond_pid_file := [], shCmd := [],
    mailCmd := [], mail_addrs := [], psadwatchd_pid_file := [],
    psadwatchd_check_interval := 5, psadwatchd_max_retries := 10 }

/-- The subject of a mail string, in the words of the claims: the text
between the double quotes that follow ` -s `. -/
def mail_subject (mail_str : CStr) : Option CStr :=
  match mail_str with
  | ' ' :: '-' :: 's' :: ' ' :: '"' :: rest =>
    if '"' ∈ rest then some (rest.takeWhile (fun c => c != '"')) else none
  | _ => none

/-- Example values for the constants of `psad.h`, used at concrete inputs. -/
def example_header : Header :=
  { MAX_MSG_LEN := 120, MAX_ARG_LEN := 30, HOSTNAME := "host".toList }

/-- Answers of a system on which the pid file cannot be opened; a restart
without command-line file succeeds. -/
def no_pid_file_sys : Sys :=
  { pid_file := FileRead.cannot_open, kill_ok := fun _ => false,
    cmdline_file := FileRead.cannot_open, fork_ok := true }

/-- Answers of a system on which the pid file opens but no line can be read
from it (an empty file, a read error). -/
def no_pid_line_sys : Sys :=
  { pid_file := FileRead.no_line, kill_ok := fun _ => false,
    cmdline_file := FileRead.cannot_open, fork_ok := true }

/-- Answers of a system on which the pid file holds the pid 1234 of a running
process. -/
def alive_sys : Sys :=
  { pid_file := FileRead.line "1234\n".toList, kill_ok := fun pid => decide (pid = 1234),
    cmdline_file := FileRead.cannot_open, fork_ok := true }

/-- Answers of a system on which the pid file holds 99999 and no process has
that pid; a restart without command-line file succeeds. -/
def dead_pid_sys : Sys :=
  { pid_file := FileRead.line "99999\n".toList, kill_ok := fun _ => false,
    cmdline_file := FileRead.cannot_open, fork_ok := true }

/-- The same answers of the system, except that the pid file cannot be
opened. -/
def Sys.without_pid_file (sys : Sys) : Sys :=
  { sys with pid_file := FileRead.cannot_open }

/-- One `check_process` call: its arguments (the process name, whether a
command-line file is given, the binary) and the answers of the system. -/
structure Call where
  sys : Sys
  pid_name : CStr
  cmdline_file : Option CStr
  binary_path : CStr

/-- A sequence of `check_process` calls with `max_retries` held fixed; nothing
runs once the watchdog has exited. -/
def run_calls (K : Header) (max_retries : Nat) : List Call → World → World
  | [], w => w
  | c :: rest, w =>
    run_calls K max_retries rest
      (w.andThen (check_process K c.sys c.pid_name c.cmdline_file c.binary_path max_retries))

/-- Each of the three failure counters `c` satisfies `0 ≤ c < R`. -/
def World.ctrs_below (w : World) (R : Nat) : Prop :=
  (0 ≤ w.psad_syscalls_ctr ∧ w.psad_syscalls_ctr < R) ∧
  (0 ≤ w.kmsgsd_syscalls_ctr ∧ w.kmsgsd_syscalls_ctr < R) ∧
  (0 ≤ w.diskmond_syscalls_ctr ∧ w.diskmond_syscalls_ctr < R)

/-- A line that `parse_config` is to skip, in the words of the specification:
its first character after the leading spaces and tabs is `#`, `;` or the
newline that ends the line. -/
def is_comment_or_blank (config_buf : CStr) : Prop :=
  (skip_whitespace config_buf).head? = some '#' ∨
  (skip_whitespace config_buf).head? = some ';' ∨
  (skip_whitespace config_buf).head? = some '\n'

/-- The state of `main` during the main loop: the globals with the trace and
the process status, the buffers and numbers filled by `parse_config` (of
which `shCmd`, `mailCmd` and `mail_addrs` are the globals held in `w`), and
`config_mtime`. -/
structure MainState where
  w : World
  cfg : Settings
  config_mtime : Nat
  deriving DecidableEq, Repr

/-- What the system answers during one pass of the main loop: the answers for
the three `check_process` calls, the modification time of the config file,
what opening and reading it gives, and what the uninitialised local buffers
of `parse_config` hold. -/
structure TickSys where
  psad : Sys
  kmsgsd : Sys
  diskmond : Sys
  st_mtime : Nat
  config_file : Option (List CStr)
  stack_check_interval : CStr
  stack_max_retries : CStr

/-- The three `check_process` calls of one pass of the main loop (lines
167-172), in the order of the source; a call runs only while the watchdog
has not exited. -/
def main_loop_checks (K : Header) (env : TickSys) (cfg : Settings) (w : World) : World :=
  ((w.andThen
      (check_process K env.psad "psad".toList (some cfg.psad_cmdline_file) cfg.psadCmd
        cfg.psadwatchd_max_retries)).andThen
      (check_process K env.kmsgsd "kmsgsd".toList none cfg.kmsgsdCmd
        cfg.psadwatchd_max_retries)).andThen
      (check_process K env.diskmond "diskmond".toList none cfg.diskmondCmd
        cfg.psadwatchd_max_retries)

/-- One pass of the main loop (lines 166-199): the three checks, then, when
the watchdog is still running, the reload step; `parse_config` exits with
`EXIT_FAILURE` when the file cannot be opened.  The closing `sleep` is not
modelled. -/
def main_loop_tick (K : Header) (env : TickSys) (s : MainState) : MainState :=
  let w3 := main_loop_checks K env s.cfg s.w
  match w3.status with
  | .running =>
    match reload_config s.config_mtime env.st_mtime env.config_file env.stack_check_interval
        env.stack_max_retries
        { s.cfg with shCmd := w3.shCmd, mailCmd := w3.mailCmd, mail_addrs := w3.mail_addrs } with
    | none => { s with w := { w3 with status := Status.exited EXIT_FAILURE } }
    | some (cfg1, mtime) =>
      { w := { w3 with shCmd := cfg1.shCmd, mailCmd := cfg1.mailCmd,
                       mail_addrs := cfg1.mail_addrs }
        cfg := cfg1
        config_mtime := mtime }
  | _ => { s with w := w3 }

/-- Answers of a system on which the pid file cannot be opened and the
command-line file holds two arguments. -/
def no_pid_file_cmdline_sys : Sys :=
  { pid_file := FileRead.cannot_open, kill_ok := fun _ => false,
    cmdline_file := FileRead.line "-i eth0\n".toList, fork_ok := true }

/-- Example settings of a running watchdog, with `max_retries = 3`. -/
def example_settings : Settings :=
  { psadCmd := "/usr/sbin/psad".toList, psad_pid_file := "/var/run/psad.pid".toList,
    psad_cmdline_file := "/var/run/psad.cmd".toList, kmsgsdCmd := "/usr/sbin/kmsgsd".toList,
    kmsgsd_pid_file := "/var/run/kmsgsd.pid".toList,
    diskmondCmd := "/usr/sbin/diskmond".toList,
    diskmond_pid_file := "/var/run/diskmond.pid".toList, shCmd := "/bin/sh".toList,
    mailCmd := "/bin/mail".toList, mail_addrs := "root@localhost".toList,
    psadwatchd_pid_file := "/var/run/psadwatchd.pid".toList,
    psadwatchd_check_interval := 5, psadwatchd_max_retries := 3 }

/-- Answers of a system on which all three pid files are missing and the
config file has been modified since it was loaded at time 100. -/
def all_dead_tick_sys : TickSys :=
  { psad := no_pid_file_cmdline_sys, kmsgsd := no_pid_file_sys, diskmond := no_pid_file_sys,
    st_mtime := 200, config_file := some ["mailCmd /usr/bin/mailx\n".toList],
    stack_check_interval := [], stack_max_retries := [] }

/-- A state of the main loop with the example settings, loaded at time 100,
and the given counters. -/
def example_main_state (psad_ctr kmsgsd_ctr diskmond_ctr : Int) : MainState :=
  { w := { psad_syscalls_ctr := psad_ctr, kmsgsd_syscalls_ctr := kmsgsd_ctr,
           diskmond_syscalls_ctr := diskmond_ctr, mail_addrs := "root@localhost".toList,
           shCmd := "/bin/sh".toList, mailCmd := "/bin/mail".toList, trace := [],
           status := Status.running }
    cfg := example_settings
    config_mtime := 100 }

/-- The characters one `fgets` call stores when it may store `n` of them, and
the rest of the stream: reading stops after a newline, after `n` characters,
or at the end of the file. -/
def fgets_take : Nat → CStr → CStr × CStr
  | 0, stream => ([], stream)
  | _ + 1, [] => ([], [])
  | n + 1, c :: cs =>
    if c = '\n' then ([c], cs)
    else ((c :: (fgets_take n cs).1), (fgets_take n cs).2)

/-- The C `fgets(buf, size, fp)` on the unread part of a file: `none` for
NULL (end of file), otherwise the string stored, of at most `size - 1`
characters, and the part of the file left unread. -/
def fgets (size : Nat) (stream : CStr) : Option (CStr × CStr) :=
  match stream with
  | [] => none
  | _ :: _ => some (fgets_take (size - 1) stream)

/-- The strings that the loop `while (fgets(config_buf, size, fp) != NULL)`
of `parse_config` (line 462) sees, one per pass. -/
def fgets_loop (size : Nat) : Nat → CStr → List CStr
  | 0, _ => []
  | fuel + 1, stream =>
    match fgets size stream with
    | none => []
    | some (config_buf, rest) => config_buf :: fgets_loop size fuel rest

/-- The strings that `parse_config` reads from a file with the given
content, its buffer having `MAX_LINE_BUF` bytes. -/
def fgets_lines (MAX_LINE_BUF : Nat) (content : CStr) : List CStr :=
  fgets_loop MAX_LINE_BUF (content.length + 1) content

/-- The first line of a text, with its newline when it has one, and the text
after it. -/
def take_line : CStr → CStr × CStr
  | [] => ([], [])
  | c :: cs => if c = '\n' then ([c], cs) else (c :: (take_line cs).1, (take_line cs).2)

/-- The lines of a text, each with its newline (the last one may lack it). -/
def split_lines : Nat → CStr → List CStr
  | 0, _ => []
  | _ + 1, [] => []
  | fuel + 1, c :: cs => (take_line (c :: cs)).1 :: split_lines fuel (take_line (c :: cs)).2

/-- The lines of a file with the given content. -/
def file_lines (content : CStr) : List CStr := split_lines (content.length + 1) content

/-- The function `parse_config` on a file given by its content (`none` when
it cannot be opened), read through a buffer of `MAX_LINE_BUF` bytes. -/
def parse_config_file (MAX_LINE_BUF : Nat) (config_file : Option CStr)
    (stack_check_interval stack_max_retries : CStr) (cfg : Settings) : Option Settings :=
  parse_config (config_file.map (fgets_lines MAX_LINE_BUF)) stack_check_interval
    stack_max_retries cfg

/-- The reload step of the main loop on a file given by its content. -/
def reload_config_file (MAX_LINE_BUF : Nat) (config_mtime st_mtime : Nat)
    (config_file : Option CStr) (stack_check_interval stack_max_retries : CStr)
    (cfg : Settings) : Option (Settings × Nat) :=
  reload_config config_mtime st_mtime (config_file.map (fgets_lines MAX_LINE_BUF))
    stack_check_interval stack_max_retries cfg

/-- A comment line of 1023 characters followed, on the same line, by the text
`psadCmd /bin/false` and the newline: one line of a file, longer than a
buffer of 1024 bytes. -/
def long_comment_line : CStr :=
  '#' :: List.replicate 1022 'x' ++ "psadCmd /bin/false\n".toList

instance (config_buf : CStr) : Decidable (is_comment_or_blank config_buf) := by
  unfold is_comment_or_blank; infer_instance

/-! ## Theorems -/

theorem to_short_of_range (x : Int) (h0 : -32768 ≤ x) (h1 : x ≤ 32767) : to_short x = x := by
  unfold to_short; omega

theorem to_unsigned_of_nonneg (x : Int) (h0 : 0 ≤ x) (h1 : x < 4294967296) :
    to_unsigned x = x.toNat := by
  unfold to_unsigned
  rw [Int.emod_eq_of_lt h0 h1]

theorem diskmond_ne_psad : "diskmond".toList ≠ "psad".toList := by decide
theorem kmsgsd_ne_psad : "kmsgsd".toList ≠ "psad".toList := by decide
theorem kmsgsd_ne_diskmond : "kmsgsd".toList ≠ "diskmond".toList := by decide

/-- `incr_syscall_ctr` on a monitored name, in terms of the named counter:
the stored value is `to_short (c + 1)` and `give_up` runs exactly when that
value, converted to `unsigned int`, is at least `max_retries`. -/
theorem incr_syscall_ctr_eq (K : Header) (pid_name : CStr) (R : Nat) (w : World)
    (hn : monitored pid_name) :
    incr_syscall_ctr K pid_name R w =
      if R ≤ to_unsigned (to_short (w.ctr pid_name + 1)) then
        give_up K pid_name (w.set_ctr pid_name (to_short (w.ctr pid_name + 1)))
      else w.set_ctr pid_name (to_short (w.ctr pid_name + 1)) := by
  rcases hn with h | h | h <;> subst h <;>
    simp [incr_syscall_ctr, World.ctr, World.set_ctr, diskmond_ne_psad, kmsgsd_ne_psad,
      kmsgsd_ne_diskmond]

theorem ctr_set_ctr (w : World) (pid_name : CStr) (v : Int) (hn : monitored pid_name) :
    (w.set_ctr pid_name v).ctr pid_name = v := by
  rcases hn with h | h | h <;> subst h <;>
    simp [World.ctr, World.set_ctr, diskmond_ne_psad, kmsgsd_ne_psad, kmsgsd_ne_diskmond]

theorem ctr_give_up (K : Header) (n m : CStr) (w : World) :
    (give_up K n w).ctr m = w.ctr m := by
  simp [give_up, World.ctr]

theorem status_set_ctr (w : World) (pid_name : CStr) (v : Int) :
    (w.set_ctr pid_name v).status = w.status := by
  unfold World.set_ctr; split_ifs <;> rfl

theorem trace_set_ctr (w : World) (pid_name : CStr) (v : Int) :
    (w.set_ctr pid_name v).trace = w.trace := by
  unfold World.set_ctr; split_ifs <;> rfl

/-- C1, as stated, fails on the code: from a counter of 32767 the stored value
is -32768 and not 32768, and from a counter of -2 with `max_retries = 5` the
new value -1 is below 5 and `give_up` runs all the same (the comparison is
unsigned). -/
theorem C1_counterexample :
    (incr_syscall_ctr ⟨120, 30, "host".toList⟩ "psad".toList 10
        { World.init [] [] [] with psad_syscalls_ctr := 32767 }).psad_syscalls_ctr = -32768 ∧
    (incr_syscall_ctr ⟨120, 30, "host".toList⟩ "psad".toList 5
        { World.init [] [] [] with psad_syscalls_ctr := -2 }).psad_syscalls_ctr = -1 ∧
    (incr_syscall_ctr ⟨120, 30, "host".toList⟩ "psad".toList 5
        { World.init [] [] [] with psad_syscalls_ctr := -2 }).status =
      Status.exited EXIT_FAILURE := by
  decide

/-- C1 (amended): for each monitored name, every prior counter value `c` with
`0 ≤ c < 32767` and every `max_retries` value `R`, `incr_syscall_ctr` sets
that counter to `c + 1`; when `c + 1 ≥ R` it calls `give_up` (so the watchdog
exits with `EXIT_FAILURE`), and when `c + 1 < R` it does nothing else, so
from a running state give-up happens if and only if `c + 1 ≥ R`. -/
theorem C1_incr_syscall_ctr (K : Header) (pid_name : CStr) (R : Nat) (w : World)
    (hn : monitored pid_name) (h0 : 0 ≤ w.ctr pid_name) (h1 : w.ctr pid_name < 32767) :
    (incr_syscall_ctr K pid_name R w).ctr pid_name = w.ctr pid_name + 1 ∧
    ((R : Int) ≤ w.ctr pid_name + 1 →
      incr_syscall_ctr K pid_name R w =
        give_up K pid_name (w.set_ctr pid_name (w.ctr pid_name + 1))) ∧
    (¬ (R : Int) ≤ w.ctr pid_name + 1 →
      incr_syscall_ctr K pid_name R w = w.set_ctr pid_name (w.ctr pid_name + 1)) ∧
    (w.status = Status.running →
      ((incr_syscall_ctr K pid_name R w).status = Status.exited EXIT_FAILURE ↔
        (R : Int) ≤ w.ctr pid_name + 1)) := by
  have hs : to_short (w.ctr pid_name + 1) = w.ctr pid_name + 1 :=
    to_short_of_range _ (by omega) (by omega)
  have hu : to_unsigned (w.ctr pid_name + 1) = (w.ctr pid_name + 1).toNat :=
    to_unsigned_of_nonneg _ (by omega) (by omega)
  have hle : R ≤ (w.ctr pid_name + 1).toNat ↔ (R : Int) ≤ w.ctr pid_name + 1 := by omega
  rw [incr_syscall_ctr_eq K pid_name R w hn, hs, hu]
  refine ⟨?_, ?_, ?_, ?_⟩
  · split_ifs
    · rw [ctr_give_up, ctr_set_ctr _ _ _ hn]
    · rw [ctr_set_ctr _ _ _ hn]
  · intro h; rw [if_pos (hle.mpr h)]
  · intro h; rw [if_neg (fun h2 => h (hle.mp h2))]
  · intro hrun
    by_cases h : R ≤ (w.ctr pid_name + 1).toNat
    · rw [if_pos h]; simp [give_up, hle.mp h]
    · have hn2 : ¬ (R : Int) ≤ w.ctr pid_name + 1 := fun h2 => h (hle.mpr h2)
      rw [if_neg h, status_set_ctr, hrun]
      constructor
      · intro h3; cases h3
      · intro h3; exact absurd h3 hn2

/-- C1 at a concrete input: `kmsgsd` at 2 failures with `max_retries = 3`. -/
theorem C1_witness :
    (incr_syscall_ctr ⟨120, 30, "host".toList⟩ "kmsgsd".toList 3
        { World.init [] [] [] with kmsgsd_syscalls_ctr := 2 }).ctr "kmsgsd".toList = 2 + 1 :=
  (C1_incr_syscall_ctr ⟨120, 30, "host".toList⟩ "kmsgsd".toList 3
    { World.init [] [] [] with kmsgsd_syscalls_ctr := 2 }
    (by decide) (by decide) (by decide)).1

/-! ### Consecutive failures (C2) -/

theorem andThen_running (w : World) (f : World → World) (h : w.status = Status.running) :
    w.andThen f = f w := by
  unfold World.andThen; rw [h]

theorem andThen_not_running (w : World) (f : World → World) (h : w.status ≠ Status.running) :
    w.andThen f = w := by
  unfold World.andThen
  split
  · exact absurd (by assumption) h
  · rfl

theorem send_then_spawn (K : Header) (mail_str binary : CStr) (cf : Option FileRead)
    (fork_ok : Bool) (argv : List CStr) (w : World) (hsp : spawns K binary cf fork_ok argv)
    (hrun : w.status = Status.running) :
    (send_alert_email mail_str w).andThen (exec_binary K binary cf fork_ok) =
      { w with trace := w.trace ++
          [Event.send_alert_email w.shCmd w.mailCmd mail_str, Event.execve binary argv] } := by
  rw [andThen_running _ _ (show (send_alert_email mail_str w).status = Status.running from hrun),
    hsp]
  simp [send_alert_email]

/-- When `exec_binary` returns after spawning: the command-line file, if one
is given, is opened and a line is read from it, the tokenizer stays within
the line buffer and within `prog_argv` (the argument vector is built without
a fault), and `fork` succeeds.  In every other case the call leaves the
watchdog exited or in an undefined state. -/
theorem spawns_iff (K : Header) (binary : CStr) (cf : Option FileRead) (fork_ok : Bool)
    (argv : List CStr) :
    spawns K binary cf fork_ok argv ↔
      (fork_ok = true ∧
        ((cf = none ∧ exec_binary_argv K binary none = .ok argv) ∨
          ∃ buf, cf = some (FileRead.line buf) ∧
            exec_binary_argv K binary (some buf) = .ok argv)) := by
  have hkey : ∀ (cb : Option CStr),
      (∀ w : World,
        (match exec_binary_argv K binary cb with
          | .error f => { w with status := Status.undefined f }
          | .ok prog_argv =>
            if fork_ok then { w with trace := w.trace ++ [Event.execve binary prog_argv] }
            else { w with status := Status.exited EXIT_FAILURE }) =
          { w with trace := w.trace ++ [Event.execve binary argv] }) ↔
      (fork_ok = true ∧ exec_binary_argv K binary cb = .ok argv) := by
    intro cb
    generalize exec_binary_argv K binary cb = r
    constructor
    · intro h
      have h0 := h (World.init [] [] [])
      cases r with
      | error f =>
        have h1 := congrArg World.status h0
        simp [World.init] at h1
      | ok a =>
        cases fork_ok with
        | false =>
          have h1 := congrArg World.status h0
          simp [World.init, EXIT_FAILURE] at h1
        | true =>
          have h1 := congrArg World.trace h0
          simp [World.init] at h1
          exact ⟨rfl, by rw [h1]⟩
    · rintro ⟨hf, hr⟩ w
      rw [hr, hf]
      rfl
  unfold spawns exec_binary
  by_cases h0 : 0 < K.MAX_ARG_LEN
  · simp only [if_pos h0]
    rcases cf with _ | _ | _ | buf
    · rw [hkey none]
      simp
    · constructor
      · intro h
        have h1 := congrArg World.status (h (World.init [] [] []))
        simp [World.init] at h1
      · rintro ⟨-, h | ⟨buf, h, -⟩⟩
        · exact absurd h.1 (by simp)
        · exact absurd h (by simp)
    · constructor
      · intro h
        have h1 := congrArg World.status (h (World.init [] [] []))
        simp [World.init] at h1
      · rintro ⟨-, h | ⟨buf, h, -⟩⟩
        · exact absurd h.1 (by simp)
        · exact absurd h (by simp)
    · rw [hkey (some buf)]
      simp
  · simp only [if_neg h0]
    have hno : ∀ cb, exec_binary_argv K binary cb ≠ .ok argv := by
      intro cb
      unfold exec_binary_argv
      rw [if_neg h0]
      simp
    constructor
    · intro h
      have h1 := congrArg World.status (h (World.init [] [] []))
      simp [World.init] at h1
    · rintro ⟨-, h | ⟨buf, -, h⟩⟩
      · exact absurd h.2 (hno none)
      · exact absurd h (hno (some buf))

/-- The call `exec_binary` of a running watchdog returns to its caller (the
watchdog is still running after it) exactly when it spawned the binary. -/
theorem exec_binary_returns_iff (K : Header) (binary : CStr) (cf : Option FileRead)
    (fork_ok : Bool) (w : World) (hrun : w.status = Status.running) :
    (exec_binary K binary cf fork_ok w).status = Status.running ↔
      ∃ argv, spawns K binary cf fork_ok argv := by
  constructor
  · intro h
    unfold exec_binary at h
    by_cases h0 : 0 < K.MAX_ARG_LEN
    · rw [if_pos h0] at h
      rcases cf with _ | _ | _ | buf
      · simp only [] at h
        cases hr : exec_binary_argv K binary none with
        | error f => rw [hr] at h; simp at h
        | ok a =>
          cases fork_ok with
          | false => rw [hr] at h; simp at h
          | true => exact ⟨a, (spawns_iff K binary none true a).mpr ⟨rfl, Or.inl ⟨rfl, hr⟩⟩⟩
      · simp at h
      · simp at h
      · simp only [] at h
        cases hr : exec_binary_argv K binary (some buf) with
        | error f => rw [hr] at h; simp at h
        | ok a =>
          cases fork_ok with
          | false => rw [hr] at h; simp at h
          | true =>
            exact ⟨a, (spawns_iff K binary (some (FileRead.line buf)) true a).mpr
              ⟨rfl, Or.inr ⟨buf, rfl, hr⟩⟩⟩
    · rw [if_neg h0] at h
      simp at h
  · rintro ⟨argv, h⟩
    rw [h w]
    exact hrun

/-- A check that finds the process dead and whose restart returns sends one
mail, spawns the binary and then runs `incr_syscall_ctr`. -/
theorem check_process_dead (K : Header) (sys : Sys) (pid_name : CStr)
    (cmdline_file : Option CStr) (binary_path : CStr) (R : Nat) (w : World)
    (hd : sys.finds_dead) (hr : sys.restart_returns K cmdline_file binary_path)
    (hrun : w.status = Status.running) :
    ∃ evs, check_process K sys pid_name cmdline_file binary_path R w =
      incr_syscall_ctr K pid_name R { w with trace := w.trace ++ evs } := by
  obtain ⟨argv, hsp⟩ := hr
  rcases hd with h | ⟨l, h, hk⟩
  · refine ⟨[Event.send_alert_email w.shCmd w.mailCmd
        (mail_str_no_pid_file K pid_name w.mail_addrs), Event.execve binary_path argv], ?_⟩
    unfold check_process
    rw [h]
    simp only []
    rw [send_then_spawn K _ _ _ _ _ w hsp hrun]
    exact andThen_running _ _ hrun
  · refine ⟨[Event.send_alert_email w.shCmd w.mailCmd
        (mail_str_not_running K pid_name w.mail_addrs), Event.execve binary_path argv], ?_⟩
    unfold check_process
    rw [h]
    simp only [hk, if_true]
    rw [send_then_spawn K _ _ _ _ _ w hsp hrun]
    exact andThen_running _ _ hrun

theorem incr_syscall_ctr_continue (K : Header) (pid_name : CStr) (R : Nat) (w : World)
    (hn : monitored pid_name) (c : Nat) (hc : w.ctr pid_name = c) (h1 : c + 1 < R)
    (h2 : c + 1 ≤ 32767) :
    incr_syscall_ctr K pid_name R w = w.set_ctr pid_name ((c : Int) + 1) := by
  have hs : to_short ((c : Int) + 1) = c + 1 := to_short_of_range _ (by omega) (by omega)
  have hu : to_unsigned ((c : Int) + 1) = c + 1 := by
    rw [to_unsigned_of_nonneg _ (by omega) (by omega)]; omega
  rw [incr_syscall_ctr_eq K pid_name R w hn, hc, hs, hu, if_neg (by omega)]

theorem incr_syscall_ctr_gives_up (K : Header) (pid_name : CStr) (R : Nat) (w : World)
    (hn : monitored pid_name) (c : Nat) (hc : w.ctr pid_name = c)
    (h : (c + 1 = R ∧ R ≤ 32767) ∨ (c = 32767 ∧ R ≤ 4294934528)) :
    incr_syscall_ctr K pid_name R w =
      give_up K pid_name (w.set_ctr pid_name (to_short ((c : Int) + 1))) := by
  rw [incr_syscall_ctr_eq K pid_name R w hn, hc]
  apply if_pos
  rcases h with ⟨h1, h2⟩ | ⟨h1, h2⟩
  · have hs : to_short ((c : Int) + 1) = c + 1 := to_short_of_range _ (by omega) (by omega)
    rw [hs, to_unsigned_of_nonneg _ (by omega) (by omega)]; omega
  · subst h1
    have hs : to_short (((32767 : Nat) : Int) + 1) = -32768 := by decide
    have hu : to_unsigned (-32768) = 4294934528 := by decide
    rw [hs, hu]; exact h2

theorem run_checks_append (K : Header) (pid_name : CStr) (cmdline_file : Option CStr)
    (binary_path : CStr) (R : Nat) (xs ys : List Sys) (w : World) :
    run_checks K pid_name cmdline_file binary_path R (xs ++ ys) w =
      run_checks K pid_name cmdline_file binary_path R ys
        (run_checks K pid_name cmdline_file binary_path R xs w) := by
  induction xs generalizing w with
  | nil => rfl
  | cons x xs ih => simp only [List.cons_append, run_checks]; exact ih _

/-- While fewer than `max_retries` (and at most 32767) consecutive failures
have been counted, the watchdog keeps running and the counter is the number
of failures. -/
theorem run_checks_survives (K : Header) (pid_name : CStr) (cmdline_file : Option CStr)
    (binary_path : CStr) (R : Nat) (hn : monitored pid_name) :
    ∀ (syss : List Sys) (w : World) (c : Nat),
      (∀ s ∈ syss, s.finds_dead ∧ s.restart_returns K cmdline_file binary_path) →
      w.status = Status.running → w.ctr pid_name = c →
      c + syss.length < R → c + syss.length ≤ 32767 →
      (run_checks K pid_name cmdline_file binary_path R syss w).status = Status.running ∧
      (run_checks K pid_name cmdline_file binary_path R syss w).ctr pid_name =
        ((c + syss.length : Nat) : Int) ∧
      (run_checks K pid_name cmdline_file binary_path R syss w).mail_addrs = w.mail_addrs ∧
      (run_checks K pid_name cmdline_file binary_path R syss w).shCmd = w.shCmd ∧
      (run_checks K pid_name cmdline_file binary_path R syss w).mailCmd = w.mailCmd := by
  intro syss
  induction syss with
  | nil => intro w c _ hrun hc _ _; simp [run_checks, hrun, hc]
  | cons s rest ih =>
    intro w c hall hrun hc hlt hle
    simp only [List.length_cons] at hlt hle
    obtain ⟨hd, hr⟩ := hall s (List.mem_cons_self _ _)
    obtain ⟨evs, hev⟩ := check_process_dead K s pid_name cmdline_file binary_path R w hd hr hrun
    have hstep : check_process K s pid_name cmdline_file binary_path R w =
        ({ w with trace := w.trace ++ evs } : World).set_ctr pid_name ((c : Int) + 1) := by
      rw [hev]
      exact incr_syscall_ctr_continue K pid_name R _ hn c (by simpa [World.ctr] using hc)
        (by omega) (by omega)
    simp only [run_checks]
    rw [andThen_running _ _ hrun, hstep]
    have := ih (({ w with trace := w.trace ++ evs } : World).set_ctr pid_name ((c : Int) + 1))
      (c + 1) (fun x hx => hall x (List.mem_cons_of_mem _ hx))
      (by rw [status_set_ctr]; exact hrun)
      (by rw [ctr_set_ctr _ _ _ hn]; push_cast; rfl) (by omega) (by omega)
    obtain ⟨t1, t2, t3, t4, t5⟩ := this
    refine ⟨t1, ?_, ?_, ?_, ?_⟩
    · rw [t2]; simp only [List.length_cons]; congr 1; omega
    · rw [t3]; unfold World.set_ctr; split_ifs <;> rfl
    · rw [t4]; unfold World.set_ctr; split_ifs <;> rfl
    · rw [t5]; unfold World.set_ctr; split_ifs <;> rfl

/-- The failure that makes the stored counter reach `max_retries` as an
unsigned value ends the run: `give_up` sends its mail and the watchdog exits. -/
theorem run_checks_gives_up (K : Header) (pid_name : CStr) (cmdline_file : Option CStr)
    (binary_path : CStr) (R : Nat) (hn : monitored pid_name) (xs : List Sys) (s : Sys)
    (w : World)
    (hall : ∀ x ∈ xs ++ [s], x.finds_dead ∧ x.restart_returns K cmdline_file binary_path)
    (hrun : w.status = Status.running) (h0 : w.ctr pid_name = 0)
    (hlt : xs.length < R) (hle : xs.length ≤ 32767)
    (h : (xs.length + 1 = R ∧ R ≤ 32767) ∨ (xs.length = 32767 ∧ R ≤ 4294934528)) :
    (run_checks K pid_name cmdline_file binary_path R (xs ++ [s]) w).status =
        Status.exited EXIT_FAILURE ∧
    (run_checks K pid_name cmdline_file binary_path R (xs ++ [s]) w).ctr pid_name =
        to_short ((xs.length : Int) + 1) ∧
    ∃ evs, (run_checks K pid_name cmdline_file binary_path R (xs ++ [s]) w).trace =
        evs ++ [Event.send_alert_email w.shCmd w.mailCmd
          (give_up_mail_str K pid_name w.mail_addrs)] := by
  obtain ⟨t1, t2, t3, t4, t5⟩ := run_checks_survives K pid_name cmdline_file binary_path R hn xs
    w 0 (fun x hx => hall x (List.mem_append_left _ hx)) hrun (by simpa using h0)
    (by omega) (by omega)
  rw [run_checks_append]
  generalize run_checks K pid_name cmdline_file binary_path R xs w = w1 at t1 t2 t3 t4 t5
  obtain ⟨hd, hr⟩ := hall s (List.mem_append_right _ (List.mem_singleton_self _))
  obtain ⟨evs, hev⟩ :=
    check_process_dead K s pid_name cmdline_file binary_path R w1 hd hr t1
  simp only [run_checks]
  rw [andThen_running _ _ t1, hev,
    incr_syscall_ctr_gives_up K pid_name R _ hn xs.length
      (by simpa [World.ctr] using t2) h]
  refine ⟨rfl, ?_, ?_⟩
  · rw [ctr_give_up, ctr_set_ctr _ _ _ hn]
  · refine ⟨w1.trace ++ evs, ?_⟩
    simp only [give_up]
    rw [trace_set_ctr]
    have e3 : (World.set_ctr { w1 with trace := w1.trace ++ evs } pid_name
        (to_short ((xs.length : Int) + 1))).mail_addrs = w.mail_addrs := by
      rw [← t3]; unfold World.set_ctr; split_ifs <;> rfl
    have e4 : (World.set_ctr { w1 with trace := w1.trace ++ evs } pid_name
        (to_short ((xs.length : Int) + 1))).shCmd = w.shCmd := by
      rw [← t4]; unfold World.set_ctr; split_ifs <;> rfl
    have e5 : (World.set_ctr { w1 with trace := w1.trace ++ evs } pid_name
        (to_short ((xs.length : Int) + 1))).mailCmd = w.mailCmd := by
      rw [← t5]; unfold World.set_ctr; split_ifs <;> rfl
    rw [e3, e4, e5]

theorem no_pid_file_sys_dead (K : Header) (binary_path : CStr) (h : 1 < K.MAX_ARG_LEN) :
    no_pid_file_sys.finds_dead ∧ no_pid_file_sys.restart_returns K none binary_path := by
  refine ⟨Or.inl rfl, [strlcpy binary_path K.MAX_ARG_LEN], fun w => ?_⟩
  have h0 : 0 < K.MAX_ARG_LEN := by omega
  simp [exec_binary, exec_binary_argv, h, h0, no_pid_file_sys]

/-- C2, as stated, fails on the code: with `max_retries = 32769` the watchdog
gives up on failure number 32768, the one before the 32769th (the `short`
counter wraps to -32768, which is 4294934528 as `unsigned int`); and with
`max_retries = 0` it gives up on the first failure. -/
theorem C2_counterexample :
    (run_checks example_header "psad".toList none "/usr/sbin/psad".toList 32769
        (List.replicate 32768 no_pid_file_sys) (World.init [] [] [])).status =
      Status.exited EXIT_FAILURE ∧
    (run_checks example_header "psad".toList none "/usr/sbin/psad".toList 0
        [no_pid_file_sys] (World.init [] [] [])).status = Status.exited EXIT_FAILURE := by
  constructor
  · have hrep : List.replicate 32768 no_pid_file_sys =
        List.replicate 32767 no_pid_file_sys ++ [no_pid_file_sys] :=
      List.replicate_succ' 32767 no_pid_file_sys
    rw [hrep]
    refine (run_checks_gives_up example_header "psad".toList none "/usr/sbin/psad".toList
      32769 (Or.inl rfl) (List.replicate 32767 no_pid_file_sys) no_pid_file_sys
      (World.init [] [] []) ?_ rfl rfl ?_ ?_ ?_).1
    · intro x hx
      have hx2 : x = no_pid_file_sys := by
        rw [← hrep] at hx
        exact List.eq_of_mem_replicate hx
      rw [hx2]
      exact no_pid_file_sys_dead example_header _ (by decide)
    · rw [List.length_replicate]; omega
    · rw [List.length_replicate]
    · right
      rw [List.length_replicate]
      exact ⟨rfl, by omega⟩
  · decide

/-- C2 (amended): for every monitored process and every `max_retries` value
`R` with `1 ≤ R ≤ 32768`, starting from a failure counter of 0 and a running
watchdog, a run of consecutive checks that find the process dead (each
restart returning) keeps the watchdog running as long as fewer than `R`
failures have happened, the counter being the number of failures, and the
`R`-th failure triggers give-up: the give-up mail is the last thing sent and
the watchdog has exited with `EXIT_FAILURE`. -/
theorem C2_give_up_on_Rth_failure (K : Header) (pid_name : CStr) (cmdline_file : Option CStr)
    (binary_path : CStr) (R : Nat) (syss : List Sys) (w : World)
    (hn : monitored pid_name) (hR1 : 1 ≤ R) (hR2 : R ≤ 32768)
    (hall : ∀ x ∈ syss, x.finds_dead ∧ x.restart_returns K cmdline_file binary_path)
    (hrun : w.status = Status.running) (h0 : w.ctr pid_name = 0) :
    (syss.length < R →
      (run_checks K pid_name cmdline_file binary_path R syss w).status = Status.running ∧
      (run_checks K pid_name cmdline_file binary_path R syss w).ctr pid_name = syss.length) ∧
    (syss.length = R →
      (run_checks K pid_name cmdline_file binary_path R syss w).status =
        Status.exited EXIT_FAILURE ∧
      ∃ evs, (run_checks K pid_name cmdline_file binary_path R syss w).trace =
        evs ++ [Event.send_alert_email w.shCmd w.mailCmd
          (give_up_mail_str K pid_name w.mail_addrs)]) := by
  constructor
  · intro hlt
    obtain ⟨t1, t2, -⟩ := run_checks_survives K pid_name cmdline_file binary_path R hn syss
      w 0 hall hrun (by simpa using h0) (by omega) (by omega)
    exact ⟨t1, by simpa using t2⟩
  · intro heq
    have hne : syss ≠ [] := by
      intro h; rw [h] at heq; simp at heq; omega
    obtain ⟨xs, s, rfl⟩ : ∃ xs s, syss = xs ++ [s] :=
      ⟨syss.dropLast, syss.getLast hne, (List.dropLast_append_getLast hne).symm⟩
    simp only [List.length_append, List.length_singleton] at heq
    obtain ⟨t1, -, t3⟩ := run_checks_gives_up K pid_name cmdline_file binary_path R hn xs s w
      hall hrun h0 (by omega) (by omega) (by omega)
    exact ⟨t1, t3⟩

/-- C2 at `max_retries = 3`: `psad` survives two failures (counter 2) and the
third one ends the watchdog. -/
theorem C2_witness :
    ((run_checks example_header "psad".toList none "/usr/sbin/psad".toList 3
        [no_pid_file_sys, no_pid_file_sys] (World.init [] [] [])).status = Status.running ∧
      (run_checks example_header "psad".toList none "/usr/sbin/psad".toList 3
        [no_pid_file_sys, no_pid_file_sys] (World.init [] [] [])).ctr "psad".toList = 2) ∧
    (run_checks example_header "psad".toList none "/usr/sbin/psad".toList 3
        [no_pid_file_sys, no_pid_file_sys, no_pid_file_sys] (World.init [] [] [])).status =
      Status.exited EXIT_FAILURE :=
  ⟨(C2_give_up_on_Rth_failure example_header "psad".toList none "/usr/sbin/psad".toList 3
      [no_pid_file_sys, no_pid_file_sys] (World.init [] [] []) (Or.inl rfl) (by decide)
      (by decide)
      (fun x hx => by
        have hx2 : x = no_pid_file_sys := by simpa using hx
        rw [hx2]; exact no_pid_file_sys_dead example_header _ (by decide))
      rfl rfl).1 (by decide),
   ((C2_give_up_on_Rth_failure example_header "psad".toList none "/usr/sbin/psad".toList 3
      [no_pid_file_sys, no_pid_file_sys, no_pid_file_sys] (World.init [] [] []) (Or.inl rfl)
      (by decide) (by decide)
      (fun x hx => by
        have hx2 : x = no_pid_file_sys := by simpa using hx
        rw [hx2]; exact no_pid_file_sys_dead example_header _ (by decide))
      rfl rfl).2 rfl).1⟩

/-! ### One check (C3, C4) -/

theorem ctr_incr_syscall_ctr (K : Header) (pid_name : CStr) (R : Nat) (w : World)
    (hn : monitored pid_name) :
    (incr_syscall_ctr K pid_name R w).ctr pid_name = to_short (w.ctr pid_name + 1) := by
  rw [incr_syscall_ctr_eq K pid_name R w hn]
  split_ifs
  · rw [ctr_give_up, ctr_set_ctr _ _ _ hn]
  · rw [ctr_set_ctr _ _ _ hn]

theorem trace_incr_syscall_ctr (K : Header) (pid_name : CStr) (R : Nat) (w : World) :
    ∃ evs, (incr_syscall_ctr K pid_name R w).trace = w.trace ++ evs := by
  unfold incr_syscall_ctr
  simp only [give_up]
  split_ifs <;> first | exact ⟨[], (List.append_nil _).symm⟩ | exact ⟨_, rfl⟩

/-- C3: when the pid file is opened and read and `kill(pid, 0)` succeeds,
`check_process` leaves the counter of the monitored process at 0, whatever it
was before, and sends no alert and performs no restart (the trace and the
process status are unchanged). -/
theorem C3_alive_resets_counter (K : Header) (sys : Sys) (pid_name : CStr)
    (cmdline_file : Option CStr) (binary_path : CStr) (R : Nat) (w : World) (pid_line : CStr)
    (hn : monitored pid_name) (hl : sys.pid_file = FileRead.line pid_line)
    (hk : sys.kill_ok (atoi pid_line) = true) :
    (check_process K sys pid_name cmdline_file binary_path R w).ctr pid_name = 0 ∧
    (check_process K sys pid_name cmdline_file binary_path R w).trace = w.trace ∧
    (check_process K sys pid_name cmdline_file binary_path R w).status = w.status := by
  have e : check_process K sys pid_name cmdline_file binary_path R w =
      reset_syscall_ctr pid_name w := by
    unfold check_process
    rw [hl]
    simp [hk]
  rw [e]
  refine ⟨?_, ?_, ?_⟩
  · rcases hn with h | h | h <;> subst h <;>
      simp [reset_syscall_ctr, World.ctr, diskmond_ne_psad, kmsgsd_ne_psad, kmsgsd_ne_diskmond]
  · unfold reset_syscall_ctr; split_ifs <;> rfl
  · unfold reset_syscall_ctr; split_ifs <;> rfl

/-- C3 at a concrete input: `kmsgsd` with 7 failures counted, pid file
holding 1234 and process 1234 alive. -/
theorem C3_witness :
    (check_process example_header alive_sys "kmsgsd".toList none "/usr/sbin/kmsgsd".toList 10
        { World.init [] [] [] with kmsgsd_syscalls_ctr := 7 }).ctr "kmsgsd".toList = 0 :=
  (C3_alive_resets_counter example_header alive_sys "kmsgsd".toList none
    "/usr/sbin/kmsgsd".toList 10 { World.init [] [] [] with kmsgsd_syscalls_ctr := 7 }
    "1234\n".toList (by decide) rfl (by decide)).1

/-- C4, as stated, fails on the code: (1) a counter of 32767 becomes -32768;
(2) when the command-line file of `psad` cannot be opened, `exec_binary`
exits the watchdog before the counter is touched: the counter is unchanged
and nothing was spawned; (3) when the pid file opens but no line can be read
from it, `check_process` returns at once: no mail, no restart, the counter
unchanged. -/
theorem C4_counterexample :
    (check_process example_header no_pid_file_sys "psad".toList none "/usr/sbin/psad".toList
        40000 { World.init [] [] [] with psad_syscalls_ctr := 32767 }).psad_syscalls_ctr
      = -32768 ∧
    (check_process example_header no_pid_file_sys "psad".toList
        (some "/var/run/psad.cmd".toList) "/usr/sbin/psad".toList 10
        (World.init [] [] [])).psad_syscalls_ctr = 0 ∧
    (check_process example_header no_pid_file_sys "psad".toList
        (some "/var/run/psad.cmd".toList) "/usr/sbin/psad".toList 10
        (World.init [] [] [])).status = Status.exited EXIT_FAILURE ∧
    (check_process example_header no_pid_file_sys "psad".toList
        (some "/var/run/psad.cmd".toList) "/usr/sbin/psad".toList 10
        (World.init [] [] [])).trace =
      [Event.send_alert_email [] [] (mail_str_no_pid_file example_header "psad".toList [])] ∧
    check_process example_header no_pid_line_sys "psad".toList none "/usr/sbin/psad".toList 10
        (World.init [] [] []) = World.init [] [] [] := by
  decide

/-- C4 (amended): for every monitored process, a `check_process` call of a
running watchdog in which the pid file cannot be opened sends the restart
mail and invokes `exec_binary` for the binary of the process; when that call
returns, that is, when it spawned the binary (the command-line file, if one
is given, is opened and read, its line is tokenized within the bounds of the
line buffer and of `prog_argv`, and `fork` succeeds: `spawns_iff`,
`exec_binary_returns_iff`), and the counter is below 32767, the mail and the
spawn are recorded in this order and the counter is exactly one greater than
before. -/
theorem C4_no_pid_file_restart (K : Header) (sys : Sys) (pid_name : CStr)
    (cmdline_file : Option CStr) (binary_path : CStr) (R : Nat) (w : World)
    (hn : monitored pid_name) (hp : sys.pid_file = FileRead.cannot_open)
    (hrun : w.status = Status.running) :
    check_process K sys pid_name cmdline_file binary_path R w =
      (exec_binary K binary_path (cmdline_file.map (fun _ => sys.cmdline_file)) sys.fork_ok
        (send_alert_email (mail_str_no_pid_file K pid_name w.mail_addrs) w)).andThen
        (incr_syscall_ctr K pid_name R) ∧
    ∀ argv, spawns K binary_path (cmdline_file.map (fun _ => sys.cmdline_file)) sys.fork_ok argv →
      -32768 ≤ w.ctr pid_name → w.ctr pid_name < 32767 →
      (check_process K sys pid_name cmdline_file binary_path R w).ctr pid_name =
        w.ctr pid_name + 1 ∧
      ∃ evs, (check_process K sys pid_name cmdline_file binary_path R w).trace =
        w.trace ++ [Event.send_alert_email w.shCmd w.mailCmd
            (mail_str_no_pid_file K pid_name w.mail_addrs),
          Event.execve binary_path argv] ++ evs := by
  have e : check_process K sys pid_name cmdline_file binary_path R w =
      ((send_alert_email (mail_str_no_pid_file K pid_name w.mail_addrs) w).andThen
        (exec_binary K binary_path (cmdline_file.map (fun _ => sys.cmdline_file))
          sys.fork_ok)).andThen (incr_syscall_ctr K pid_name R) := by
    unfold check_process
    rw [hp]
  constructor
  · rw [e, andThen_running _ _
      (show (send_alert_email (mail_str_no_pid_file K pid_name w.mail_addrs) w).status =
        Status.running from hrun)]
  · intro argv hsp hlo hhi
    rw [e, send_then_spawn K _ _ _ _ _ w hsp hrun]
    rw [andThen_running ({ w with trace := w.trace ++
      [Event.send_alert_email w.shCmd w.mailCmd (mail_str_no_pid_file K pid_name w.mail_addrs),
        Event.execve binary_path argv] } : World) (incr_syscall_ctr K pid_name R) hrun]
    constructor
    · rw [ctr_incr_syscall_ctr K pid_name R _ hn]
      exact to_short_of_range _ (by simp only [World.ctr] at hlo hhi ⊢; omega)
        (by simp only [World.ctr] at hlo hhi ⊢; omega)
    · exact trace_incr_syscall_ctr K pid_name R _

/-- C4 at a concrete input: `diskmond`, no pid file, counter 4. -/
theorem C4_witness :
    (check_process example_header no_pid_file_sys "diskmond".toList none
        "/usr/sbin/diskmond".toList 10
        { World.init [] [] [] with diskmond_syscalls_ctr := 4 }).ctr "diskmond".toList =
      4 + 1 :=
  ((C4_no_pid_file_restart example_header no_pid_file_sys "diskmond".toList none
    "/usr/sbin/diskmond".toList 10 { World.init [] [] [] with diskmond_syscalls_ctr := 4 }
    (by decide) rfl rfl).2 ["/usr/sbin/diskmond".toList] (fun _ => rfl) (by decide)
    (by decide)).1

/-! ### The argument vector of `exec_binary` (C5, C6) -/

theorem is_blank_iff (c : Char) : is_blank c = true ↔ (c = ' ' ∨ c = '\t') := by
  simp [is_blank]

theorem skip_whitespace_eq (l : CStr) : skip_whitespace l = l.dropWhile is_blank := by
  induction l with
  | nil => rfl
  | cons c cs ih =>
    by_cases h : c = ' ' ∨ c = '\t'
    · rw [skip_whitespace, if_pos h, ih, List.dropWhile_cons_of_pos ((is_blank_iff c).mpr h)]
    · rw [skip_whitespace, if_neg h]
      rw [List.dropWhile_cons_of_neg (fun hb => h ((is_blank_iff c).mp hb))]

/-- The inner loop stops at the first space, tab or newline and returns the
characters before it. -/
theorem scan_non_ws_stops (b : CStr) (d : Char) (t : CStr)
    (hb : ∀ c ∈ b, is_blank c = false ∧ c ≠ '\n') (hd : is_blank d = true ∨ d = '\n') :
    scan_non_ws (b ++ d :: t) = some (b, d :: t) := by
  induction b with
  | nil =>
    have : d = ' ' ∨ d = '\t' ∨ d = '\n' := by
      rcases hd with h | h
      · rcases (is_blank_iff d).mp h with h | h
        · exact Or.inl h
        · exact Or.inr (Or.inl h)
      · exact Or.inr (Or.inr h)
    simp [scan_non_ws, this]
  | cons c cs ih =>
    obtain ⟨h1, h2⟩ := hb c (List.mem_cons_self _ _)
    have hc : ¬ (c = ' ' ∨ c = '\t' ∨ c = '\n') := by
      rintro (h | h | h)
      · rw [h] at h1; exact absurd h1 (by decide)
      · rw [h] at h1; exact absurd h1 (by decide)
      · exact h2 h
    rw [List.cons_append, scan_non_ws, if_neg hc,
      ih (fun x hx => hb x (List.mem_cons_of_mem _ hx))]

theorem strlcpy_of_short (src : CStr) (size : Nat) (h : src.length < size) :
    strlcpy src size = src := by
  unfold strlcpy
  exact List.take_of_length_le (by omega)

/-- Without a command-line file the argument vector is the binary path alone,
when the path is shorter than `MAX_ARG_LEN`. -/
theorem exec_binary_argv_none (K : Header) (binary : CStr)
    (hbin : binary.length < K.MAX_ARG_LEN) (h1 : 1 < K.MAX_ARG_LEN) :
    exec_binary_argv K binary none = Except.ok [binary] := by
  have h0 : 0 < K.MAX_ARG_LEN := by omega
  simp [exec_binary_argv, h0, h1, strlcpy_of_short binary _ hbin]

theorem scan_non_ws_split (l tok rest : CStr) (h : scan_non_ws l = some (tok, rest)) :
    tok ++ rest = l := by
  induction l generalizing tok rest with
  | nil => simp [scan_non_ws] at h
  | cons c cs ih =>
    rw [scan_non_ws] at h
    by_cases hc : c = ' ' ∨ c = '\t' ∨ c = '\n'
    · rw [if_pos hc] at h
      simp only [Option.some.injEq, Prod.mk.injEq] at h
      rw [← h.1, ← h.2]; rfl
    · rw [if_neg hc] at h
      cases hs : scan_non_ws cs with
      | none => rw [hs] at h; simp at h
      | some p =>
        obtain ⟨t2, r2⟩ := p
        rw [hs] at h
        simp only [Option.some.injEq, Prod.mk.injEq] at h
        rw [← h.1, ← h.2, List.cons_append, ih t2 r2 hs]

theorem scan_non_ws_empty_token (c : Char) (cs rest : CStr)
    (h : scan_non_ws (c :: cs) = some ([], rest)) : c = ' ' ∨ c = '\t' ∨ c = '\n' := by
  by_contra hc
  rw [scan_non_ws, if_neg hc] at h
  cases hs : scan_non_ws cs with
  | none => rw [hs] at h; simp at h
  | some p => rw [hs] at h; simp at h

theorem skip_whitespace_length_le (l : CStr) : (skip_whitespace l).length ≤ l.length := by
  rw [skip_whitespace_eq]
  exact (List.dropWhile_sublist is_blank).length_le

/-- Fuel above the length of the buffer is never used up: every pass of the
outer loop moves `index` forward. -/
theorem tokenize_loop_fuel (M : Nat) :
    ∀ (fuel : Nat) (idx : CStr) (argv : List CStr), idx.length < fuel →
      tokenize_loop M fuel idx argv ≠ Except.error Fault.out_of_fuel := by
  intro fuel
  induction fuel with
  | zero => intro idx argv h; omega
  | succ n ih =>
    intro idx argv hlen
    cases idx with
    | nil => simp [tokenize_loop]
    | cons c cs =>
      rw [tokenize_loop]
      by_cases h1 : c = '\n' ∨ c = '\x00'
      · rw [if_pos h1]; simp
      · rw [if_neg h1]
        cases hs : scan_non_ws (c :: cs) with
        | none => simp
        | some p =>
          obtain ⟨tok, rest⟩ := p
          simp only
          by_cases h2 : argv.length < M
          · rw [if_pos h2]
            apply ih
            have hsplit := scan_non_ws_split _ _ _ hs
            have hle := skip_whitespace_length_le rest
            simp only [List.length_cons] at hlen
            cases tok with
            | nil =>
              have hc := scan_non_ws_empty_token c cs rest hs
              have hb : c = ' ' ∨ c = '\t' := by
                rcases hc with h | h | h
                · exact Or.inl h
                · exact Or.inr h
                · exact absurd (Or.inl h) h1
              rw [List.nil_append] at hsplit
              rw [hsplit, skip_whitespace, if_pos hb]
              have := skip_whitespace_length_le cs
              omega
            | cons t ts =>
              have hl := congrArg List.length hsplit
              simp only [List.length_append, List.length_cons] at hl
              omega
          · rw [if_neg h2]; simp

/-- The fuel given to the tokenizer by `exec_binary_argv` always suffices. -/
theorem exec_binary_argv_fuel (K : Header) (binary : CStr) (cmdline_buf : Option CStr) :
    exec_binary_argv K binary cmdline_buf ≠ Except.error Fault.out_of_fuel := by
  unfold exec_binary_argv
  by_cases h0 : 0 < K.MAX_ARG_LEN
  · rw [if_pos h0]
    cases cmdline_buf with
    | none =>
      simp only
      split_ifs <;> simp
    | some buf =>
      simp only
      have hf := tokenize_loop_fuel K.MAX_ARG_LEN (buf.length + 1) (skip_whitespace buf)
        [strlcpy binary K.MAX_ARG_LEN] (Nat.lt_succ_of_le (skip_whitespace_length_le buf))
      cases hl : tokenize_loop K.MAX_ARG_LEN (buf.length + 1) (skip_whitespace buf)
          [strlcpy binary K.MAX_ARG_LEN] with
      | error f =>
        rw [hl] at hf
        simpa using hf
      | ok r =>
        simp only
        split_ifs <;> simp
  · rw [if_neg h0]; simp

/-- The tokenizer only appends to the entries stored before it. -/
theorem tokenize_loop_extends (M : Nat) :
    ∀ (fuel : Nat) (idx : CStr) (argv r : List CStr),
      tokenize_loop M fuel idx argv = Except.ok r → ∃ more, r = argv ++ more := by
  intro fuel
  induction fuel with
  | zero => intro idx argv r h; simp [tokenize_loop] at h
  | succ n ih =>
    intro idx argv r h
    cases idx with
    | nil =>
      simp only [tokenize_loop, Except.ok.injEq] at h
      exact ⟨[], by rw [← h, List.append_nil]⟩
    | cons c cs =>
      rw [tokenize_loop] at h
      by_cases h1 : c = '\n' ∨ c = '\x00'
      · rw [if_pos h1] at h
        simp only [Except.ok.injEq] at h
        exact ⟨[], by rw [← h, List.append_nil]⟩
      · rw [if_neg h1] at h
        cases hs : scan_non_ws (c :: cs) with
        | none => rw [hs] at h; simp at h
        | some p =>
          obtain ⟨tok, rest⟩ := p
          rw [hs] at h
          simp only at h
          by_cases h2 : argv.length < M
          · rw [if_pos h2] at h
            obtain ⟨more, hm⟩ := ih _ _ _ h
            exact ⟨c_string tok :: more, by rw [hm, List.append_assoc]; rfl⟩
          · rw [if_neg h2] at h
            simp at h

/-- An argument vector delivered for a binary path of `MAX_ARG_LEN` or more
characters never starts with that path: `strlcpy` cut it to
`MAX_ARG_LEN - 1` characters. -/
theorem exec_binary_argv_truncates (K : Header) (binary : CStr) (line : Option CStr)
    (argv : List CStr) (hlong : K.MAX_ARG_LEN ≤ binary.length)
    (h : exec_binary_argv K binary line = Except.ok argv) :
    argv.head? = some (binary.take (K.MAX_ARG_LEN - 1)) ∧ argv.head? ≠ some binary := by
  have h0 : 0 < K.MAX_ARG_LEN := by
    by_contra hc
    simp [exec_binary_argv, hc] at h
  have hhead : argv.head? = some (binary.take (K.MAX_ARG_LEN - 1)) := by
    unfold exec_binary_argv at h
    rw [if_pos h0] at h
    cases line with
    | none =>
      simp only at h
      split_ifs at h
      simp only [Except.ok.injEq] at h
      rw [← h]; rfl
    | some buf =>
      simp only at h
      cases hl : tokenize_loop K.MAX_ARG_LEN (buf.length + 1) (skip_whitespace buf)
          [strlcpy binary K.MAX_ARG_LEN] with
      | error f => rw [hl] at h; simp at h
      | ok r =>
        rw [hl] at h
        simp only at h
        split_ifs at h
        simp only [Except.ok.injEq] at h
        obtain ⟨more, hm⟩ := tokenize_loop_extends _ _ _ _ _ hl
        rw [← h, hm]; rfl
  refine ⟨hhead, ?_⟩
  rw [hhead]
  intro heq
  have hlen : (binary.take (K.MAX_ARG_LEN - 1)).length ≤ K.MAX_ARG_LEN - 1 :=
    List.length_take_le _ _
  rw [Option.some.inj heq] at hlen
  omega

/-- C5 fails on the code at two kinds of input (with `MAX_ARG_LEN = 30`):
a binary path of 30 or more characters is cut to 29 characters in `argv[0]`,
and a command line of 29 tokens makes the tokenizer store outside
`prog_argv`. -/
theorem C5_exec_binary_failing_inputs :
    exec_binary_argv example_header "/usr/local/psad-1.1.1/sbin/psad".toList none =
      Except.ok ["/usr/local/psad-1.1.1/sbin/ps".toList] ∧
    exec_binary_argv example_header "/usr/local/psad-1.1.1/sbin/psad".toList
        (some "-i eth0\n".toList) =
      Except.ok ["/usr/local/psad-1.1.1/sbin/ps".toList, "-i".toList, "eth0".toList] ∧
    (spec_tokens "1 2 3 4 5 6 7 8 9 10 11 12 13 14 15 16 17 18 19 20 21 22 23 24 25 26 27 28 29\n".toList).length = 29 ∧
    exec_binary_argv example_header "/usr/sbin/psad".toList
        (some "1 2 3 4 5 6 7 8 9 10 11 12 13 14 15 16 17 18 19 20 21 22 23 24 25 26 27 28 29\n".toList) =
      Except.error Fault.argv_overflow := by
  decide

theorem strlcat_of_fits (dst src : CStr) (size : Nat) (h : dst.length + src.length < size) :
    strlcat dst src size = dst ++ src := by
  unfold strlcat
  rw [List.take_of_length_le (by omega)]

theorem takeWhile_ne_quote (a t : CStr) (h : ∀ c ∈ a, c ≠ '"') :
    (a ++ '"' :: t).takeWhile (fun c => c != '"') = a := by
  induction a with
  | nil => simp
  | cons x xs ih =>
    have hx : (x != '"') = true := by simpa using h x (List.mem_cons_self _ _)
    rw [List.cons_append, List.takeWhile_cons, if_pos hx,
      ih (fun c hc => h c (List.mem_cons_of_mem _ hc))]

/-- The subject of a mail string of the form ` -s "` subject `" ` rest. -/
theorem mail_subject_of_quoted (subj t : CStr) (h : ∀ c ∈ subj, c ≠ '"') :
    mail_subject (" -s \"".toList ++ subj ++ '"' :: t) = some subj := by
  have e : " -s \"".toList ++ subj ++ '"' :: t =
      ' ' :: '-' :: 's' :: ' ' :: '"' :: (subj ++ '"' :: t) := by
    rw [List.append_assoc]; rfl
  rw [e]
  simp only [mail_subject]
  rw [if_pos (by simp), takeWhile_ne_quote subj t h]

/-- When nothing is truncated, the restart mail built after a failed `fopen`
of the pid file is the concatenation of its seven parts. -/
theorem mail_str_no_pid_file_eq (K : Header) (pid_name mail_addrs : CStr)
    (hfit : 67 + pid_name.length + K.HOSTNAME.length + mail_addrs.length < K.MAX_MSG_LEN) :
    mail_str_no_pid_file K pid_name mail_addrs =
      " -s \"".toList ++ (" ** psadwatchd: Restarting ".toList ++ pid_name ++ " on ".toList ++
        K.HOSTNAME) ++ '"' :: (' ' :: (mail_addrs ++ mail_redr)) := by
  have l1 : (" -s \" ** psadwatchd: Restarting ".toList).length = 32 := by decide
  have l3 : (" on ".toList).length = 4 := by decide
  have l5 : ("\" ".toList).length = 2 := by decide
  have l7 : mail_redr.length = 29 := by decide
  unfold mail_str_no_pid_file
  simp only []
  rw [strlcat_of_fits [] _ _ (by simp only [List.length_nil, l1]; omega)]
  rw [strlcat_of_fits _ pid_name _ (by simp only [List.length_append, List.length_nil, l1]; omega)]
  rw [strlcat_of_fits _ " on ".toList _
    (by simp only [List.length_append, List.length_nil, l1, l3]; omega)]
  rw [strlcat_of_fits _ K.HOSTNAME _
    (by simp only [List.length_append, List.length_nil, l1, l3]; omega)]
  rw [strlcat_of_fits _ "\" ".toList _
    (by simp only [List.length_append, List.length_nil, l1, l3, l5]; omega)]
  rw [strlcat_of_fits _ mail_addrs _
    (by simp only [List.length_append, List.length_nil, l1, l3, l5]; omega)]
  rw [strlcat_of_fits _ mail_redr _
    (by simp only [List.length_append, List.length_nil, l1, l3, l5, l7]; omega)]
  have e1 : " -s \" ** psadwatchd: Restarting ".toList =
      " -s \"".toList ++ " ** psadwatchd: Restarting ".toList := by decide
  have e5 : "\" ".toList = ['"', ' '] := by decide
  rw [e1, e5]
  simp only [List.nil_append, List.append_assoc, List.cons_append]

theorem check_process_cannot_open (K : Header) (sys : Sys) (pid_name : CStr)
    (cmdline_file : Option CStr) (binary_path : CStr) (R : Nat) (w : World) (argv : List CStr)
    (hp : sys.pid_file = FileRead.cannot_open) (hrun : w.status = Status.running)
    (hsp : spawns K binary_path (cmdline_file.map (fun _ => sys.cmdline_file)) sys.fork_ok argv) :
    check_process K sys pid_name cmdline_file binary_path R w =
      incr_syscall_ctr K pid_name R { w with trace := w.trace ++
        [Event.send_alert_email w.shCmd w.mailCmd (mail_str_no_pid_file K pid_name w.mail_addrs),
          Event.execve binary_path argv] } := by
  unfold check_process
  rw [hp]
  simp only []
  rw [send_then_spawn K _ _ _ _ _ w hsp hrun]
  exact andThen_running _ _ hrun

theorem monitored_no_quote (pid_name : CStr) (hn : monitored pid_name) :
    ∀ c ∈ pid_name, c ≠ '"' := by
  rcases hn with h | h | h <;> subst h <;> decide

/-- C7, as stated, fails on the code: the text between the double quotes of
the restart mail starts with ` ** `, so it is not equal to
`psadwatchd: Restarting psad on host`. -/
theorem C7_counterexample :
    (check_process example_header no_pid_file_sys "psad".toList none "/usr/sbin/psad".toList 10
        (World.init "root@localhost".toList "/bin/sh".toList "/bin/mail".toList)).trace =
      [Event.send_alert_email "/bin/sh".toList "/bin/mail".toList
          " -s \" ** psadwatchd: Restarting psad on host\" root@localhost < /dev/null > /dev/null 2>&1".toList,
        Event.execve "/usr/sbin/psad".toList ["/usr/sbin/psad".toList]] ∧
    mail_subject
        " -s \" ** psadwatchd: Restarting psad on host\" root@localhost < /dev/null > /dev/null 2>&1".toList =
      some " ** psadwatchd: Restarting psad on host".toList ∧
    mail_subject
        " -s \" ** psadwatchd: Restarting psad on host\" root@localhost < /dev/null > /dev/null 2>&1".toList ≠
      some "psadwatchd: Restarting psad on host".toList := by
  decide

/-- C7 (amended): for every monitored process name, host name without a
double quote and recipient list short enough that nothing is truncated at
`MAX_MSG_LEN`, a `check_process` call that cannot open the pid file (from a
running watchdog, counter 0, the restart returning) first sends a mail whose
subject, the text between the double quotes following `-s`, is
` ** psadwatchd: Restarting <name> on <host>` and which is addressed to the
configured recipients, then spawns the binary, and leaves the counter of the
process at 1. -/
theorem C7_missing_pid_file_alert (K : Header) (sys : Sys) (pid_name : CStr)
    (cmdline_file : Option CStr) (binary_path : CStr) (R : Nat) (w : World) (argv : List CStr)
    (hn : monitored pid_name) (hq : ∀ c ∈ K.HOSTNAME, c ≠ '"')
    (hfit : 67 + pid_name.length + K.HOSTNAME.length + w.mail_addrs.length < K.MAX_MSG_LEN)
    (hp : sys.pid_file = FileRead.cannot_open) (hrun : w.status = Status.running)
    (h0 : w.ctr pid_name = 0)
    (hsp : spawns K binary_path (cmdline_file.map (fun _ => sys.cmdline_file)) sys.fork_ok argv) :
    ∃ mail_str evs,
      (check_process K sys pid_name cmdline_file binary_path R w).trace =
        w.trace ++ [Event.send_alert_email w.shCmd w.mailCmd mail_str,
          Event.execve binary_path argv] ++ evs ∧
      mail_subject mail_str =
        some (" ** psadwatchd: Restarting ".toList ++ pid_name ++ " on ".toList ++ K.HOSTNAME) ∧
      mail_str = " -s \"".toList ++
        (" ** psadwatchd: Restarting ".toList ++ pid_name ++ " on ".toList ++ K.HOSTNAME) ++
        '"' :: (' ' :: (w.mail_addrs ++ mail_redr)) ∧
      (check_process K sys pid_name cmdline_file binary_path R w).ctr pid_name = 1 := by
  have e := check_process_cannot_open K sys pid_name cmdline_file binary_path R w argv hp hrun hsp
  obtain ⟨evs, hevs⟩ := trace_incr_syscall_ctr K pid_name R
    ({ w with trace := w.trace ++
        [Event.send_alert_email w.shCmd w.mailCmd (mail_str_no_pid_file K pid_name w.mail_addrs),
          Event.execve binary_path argv] } : World)
  have hm := mail_str_no_pid_file_eq K pid_name w.mail_addrs hfit
  refine ⟨mail_str_no_pid_file K pid_name w.mail_addrs, evs, ?_, ?_, hm, ?_⟩
  · rw [e, hevs]
  · rw [hm]
    apply mail_subject_of_quoted
    intro c hc
    simp only [List.mem_append] at hc
    rcases hc with ((hc | hc) | hc) | hc
    · revert c; decide
    · exact monitored_no_quote pid_name hn c hc
    · revert c; decide
    · exact hq c hc
  · rw [e, ctr_incr_syscall_ctr K pid_name R _ hn]
    have : World.ctr ({ w with trace := w.trace ++
        [Event.send_alert_email w.shCmd w.mailCmd (mail_str_no_pid_file K pid_name w.mail_addrs),
          Event.execve binary_path argv] } : World) pid_name = 0 := h0
    rw [this]; decide

/-- C7 at a concrete input: `psad` on `host`, mail to `root@localhost`. -/
theorem C7_witness :
    ∃ mail_str evs,
      (check_process example_header no_pid_file_sys "psad".toList none "/usr/sbin/psad".toList
          10 (World.init "root@localhost".toList "/bin/sh".toList "/bin/mail".toList)).trace =
        [] ++ [Event.send_alert_email "/bin/sh".toList "/bin/mail".toList mail_str,
          Event.execve "/usr/sbin/psad".toList ["/usr/sbin/psad".toList]] ++ evs ∧
      mail_subject mail_str =
        some (" ** psadwatchd: Restarting ".toList ++ "psad".toList ++ " on ".toList ++
          "host".toList) ∧
      mail_str = " -s \"".toList ++
        (" ** psadwatchd: Restarting ".toList ++ "psad".toList ++ " on ".toList ++
          "host".toList) ++
        '"' :: (' ' :: ("root@localhost".toList ++ mail_redr)) ∧
      (check_process example_header no_pid_file_sys "psad".toList none "/usr/sbin/psad".toList
          10 (World.init "root@localhost".toList "/bin/sh".toList "/bin/mail".toList)).ctr
        "psad".toList = 1 :=
  C7_missing_pid_file_alert example_header no_pid_file_sys "psad".toList none
    "/usr/sbin/psad".toList 10
    (World.init "root@localhost".toList "/bin/sh".toList "/bin/mail".toList)
    ["/usr/sbin/psad".toList] (Or.inl rfl) (by decide) (by decide) rfl rfl rfl (fun _ => rfl)

theorem scan_key_nil (k old : CStr) : scan_key k [] old = old := rfl

theorem scan_key_cons (k l : CStr) (ls : List CStr) (old : CStr) :
    scan_key k (l :: ls) old = scan_key k ls (line_step k old l) := rfl

theorem line_step_of_names_key (k a b l : CStr) (h : names_key k l = true) :
    line_step k a l = line_step k b l := by
  unfold names_key at h
  simp only [Bool.and_eq_true, decide_eq_true_eq] at h
  unfold line_step find_char_var
  rw [if_pos h.1, if_pos h.2, if_pos h.1, if_pos h.2]

theorem line_step_of_not_names_key (k a l : CStr) (h : names_key k l = false) :
    line_step k a l = a := by
  unfold names_key at h
  unfold line_step find_char_var
  by_cases h1 : is_config_line (skip_whitespace l) = true
  · rw [if_pos h1]
    simp only [h1, Bool.true_and, decide_eq_false_iff_not] at h
    rw [if_neg h]
  · rw [if_neg h1]

/-- A buffer whose key starts no line of the file keeps its value. -/
theorem scan_key_of_no_match (k : CStr) (lines : List CStr) (old : CStr)
    (h : ∀ l ∈ lines, names_key k l = false) : scan_key k lines old = old := by
  induction lines generalizing old with
  | nil => rfl
  | cons l ls ih =>
    rw [scan_key_cons, line_step_of_not_names_key k old l (h l (List.mem_cons_self _ _))]
    exact ih old (fun x hx => h x (List.mem_cons_of_mem _ hx))

/-- A buffer whose key starts a line of the file gets a value that does not
depend on the value it had before. -/
theorem scan_key_of_match (k : CStr) (lines : List CStr) (old1 old2 : CStr)
    (h : ∃ l ∈ lines, names_key k l = true) :
    scan_key k lines old1 = scan_key k lines old2 := by
  induction lines generalizing old1 old2 with
  | nil => obtain ⟨l, hl, -⟩ := h; cases hl
  | cons l ls ih =>
    rw [scan_key_cons, scan_key_cons]
    by_cases hk : names_key k l = true
    · rw [line_step_of_names_key k old1 old2 l hk]
    · have hk2 : names_key k l = false := by simpa using hk
      rw [line_step_of_not_names_key k old1 l hk2, line_step_of_not_names_key k old2 l hk2]
      apply ih
      obtain ⟨x, hx, hxk⟩ := h
      rcases List.mem_cons.mp hx with rfl | hx2
      · exact absurd hxk hk
      · exact ⟨x, hx2, hxk⟩

theorem parse_config_line_eq (l : CStr) (v : ParseVars) :
    (parse_config_line l v).cfg.strings =
      List.zipWith (fun key old => line_step key old l) string_keys v.cfg.strings ∧
    (parse_config_line l v).char_psadwatchd_check_interval =
      line_step "PSADWATCHD_CHECK_INTERVAL ".toList v.char_psadwatchd_check_interval l ∧
    (parse_config_line l v).char_psadwatchd_max_retries =
      line_step "PSADWATCHD_MAX_RETRIES ".toList v.char_psadwatchd_max_retries l := by
  unfold parse_config_line line_step
  by_cases h : is_config_line (skip_whitespace l) = true
  · simp [h, Settings.strings, string_keys]
  · simp [h, Settings.strings, string_keys]

/-- The variables of `parse_config` after the last line, buffer by buffer. -/
theorem foldl_parse_config_line (lines : List CStr) (v : ParseVars) :
    (lines.foldl (fun v config_buf => parse_config_line config_buf v) v).cfg.strings =
      List.zipWith (fun key old => scan_key key lines old) string_keys v.cfg.strings ∧
    (lines.foldl (fun v config_buf => parse_config_line config_buf v)
        v).char_psadwatchd_check_interval =
      scan_key "PSADWATCHD_CHECK_INTERVAL ".toList lines v.char_psadwatchd_check_interval ∧
    (lines.foldl (fun v config_buf => parse_config_line config_buf v)
        v).char_psadwatchd_max_retries =
      scan_key "PSADWATCHD_MAX_RETRIES ".toList lines v.char_psadwatchd_max_retries := by
  induction lines generalizing v with
  | nil => exact ⟨rfl, rfl, rfl⟩
  | cons l ls ih =>
    simp only [List.foldl_cons]
    obtain ⟨h1, h2, h3⟩ := ih (parse_config_line l v)
    obtain ⟨e1, e2, e3⟩ := parse_config_line_eq l v
    refine ⟨?_, ?_, ?_⟩
    · rw [h1, e1]; rfl
    · rw [h2, e2]; rfl
    · rw [h3, e3]; rfl

/-- The settings delivered by `parse_config` for a file that opens. -/
theorem parse_config_eq (lines : List CStr) (u1 u2 : CStr) (cfg : Settings) :
    ∃ cfg1, parse_config (some lines) u1 u2 cfg = some cfg1 ∧
      cfg1.strings = List.zipWith (fun key old => scan_key key lines old) string_keys
        cfg.strings ∧
      cfg1.psadwatchd_check_interval =
        to_unsigned (atoi (scan_key "PSADWATCHD_CHECK_INTERVAL ".toList lines u1)) ∧
      cfg1.psadwatchd_max_retries =
        to_unsigned (atoi (scan_key "PSADWATCHD_MAX_RETRIES ".toList lines u2)) := by
  obtain ⟨h1, h2, h3⟩ := foldl_parse_config_line lines
    { cfg := cfg, char_psadwatchd_check_interval := u1, char_psadwatchd_max_retries := u2 }
  refine ⟨_, rfl, ?_, ?_, ?_⟩
  · rw [← h1]; rfl
  · simp only [h2]
  · simp only [h3]

/-- C9, as stated, fails on the code: the modification time has changed and
the same file, which holds one comment line, is reloaded (through a buffer
of 1024 bytes) from two settings that differ in `psadCmd`; each reload keeps
the `psadCmd` it started from, so the results differ and are not determined
by the file. -/
theorem C9_counterexample :
    reload_config_file 1024 100 200 (some "# nothing is set here\n".toList) [] []
        { empty_settings with psadCmd := "/usr/sbin/psad".toList } =
      some ({ empty_settings with psadCmd := "/usr/sbin/psad".toList,
                                  psadwatchd_check_interval := 0,
                                  psadwatchd_max_retries := 0 }, 200) ∧
    reload_config_file 1024 100 200 (some "# nothing is set here\n".toList) [] []
        { empty_settings with psadCmd := "/opt/psad".toList } =
      some ({ empty_settings with psadCmd := "/opt/psad".toList,
                                  psadwatchd_check_interval := 0,
                                  psadwatchd_max_retries := 0 }, 200) ∧
    reload_config_file 1024 100 200 (some "# nothing is set here\n".toList) [] []
        { empty_settings with psadCmd := "/usr/sbin/psad".toList } ≠
      reload_config_file 1024 100 200 (some "# nothing is set here\n".toList) [] []
        { empty_settings with psadCmd := "/opt/psad".toList } := by
  decide

/-- Without a `PSADWATCHD_CHECK_INTERVAL` line and a `PSADWATCHD_MAX_RETRIES`
line, the two numbers delivered by `parse_config` are `atoi` of what the
uninitialised local buffers hold, whatever the numbers were before. -/
theorem parse_config_numbers_without_keys (lines : List CStr) (u1 u2 : CStr) (cfg : Settings)
    (h1 : ∀ l ∈ lines, names_key "PSADWATCHD_CHECK_INTERVAL ".toList l = false)
    (h2 : ∀ l ∈ lines, names_key "PSADWATCHD_MAX_RETRIES ".toList l = false) :
    ∃ cfg1, parse_config (some lines) u1 u2 cfg = some cfg1 ∧
      cfg1.psadwatchd_check_interval = to_unsigned (atoi u1) ∧
      cfg1.psadwatchd_max_retries = to_unsigned (atoi u2) := by
  obtain ⟨cfg1, e, -, e2, e3⟩ := parse_config_eq lines u1 u2 cfg
  refine ⟨cfg1, e, ?_, ?_⟩
  · rw [e2, scan_key_of_no_match _ lines u1 h1]
  · rw [e3, scan_key_of_no_match _ lines u2 h2]

/-- C10 fails on the code: a readable config file without a
`PSADWATCHD_CHECK_INTERVAL` and a `PSADWATCHD_MAX_RETRIES` line (here two
comment lines), loaded at startup over the initialisers 5 and 10, gives the
numbers that `atoi` reads from the uninitialised local buffers: 0 and 0 when
they hold empty strings, 73 and 0 when they hold `73` and `x`. -/
theorem C10_defaults_overwritten :
    empty_settings.at_startup.psadwatchd_check_interval = 5 ∧
    empty_settings.at_startup.psadwatchd_max_retries = 10 ∧
    parse_config (some ["# psadwatchd.conf\n".toList, "; no numbers are set\n".toList])
        [] [] empty_settings.at_startup =
      some { empty_settings with psadwatchd_check_interval := 0,
                                 psadwatchd_max_retries := 0 } ∧
    parse_config (some ["# psadwatchd.conf\n".toList, "; no numbers are set\n".toList])
        "73".toList "x".toList empty_settings.at_startup =
      some { empty_settings with psadwatchd_check_interval := 73,
                                 psadwatchd_max_retries := 0 } := by
  decide

/-! ### The two restart paths (C11) -/

/-- C11: for every process name, host, recipient list and state of the
globals, a `check_process` call whose pid file is read and whose probe
`kill(pid, 0)` fails builds the same mail string as a call whose pid file
cannot be opened and leaves exactly the same state: the same mail, the same
`exec_binary` call and the same `incr_syscall_ctr` update, recorded in the
same order. -/
theorem C11_dead_path_same_as_missing_file (K : Header) (sys : Sys) (pid_name : CStr)
    (cmdline_file : Option CStr) (binary_path : CStr) (R : Nat) (w : World) (pid_line : CStr)
    (hl : sys.pid_file = FileRead.line pid_line)
    (hk : sys.kill_ok (atoi pid_line) = false) :
    mail_str_not_running K pid_name w.mail_addrs = mail_str_no_pid_file K pid_name w.mail_addrs ∧
    check_process K sys pid_name cmdline_file binary_path R w =
      check_process K sys.without_pid_file pid_name cmdline_file binary_path R w ∧
    check_process K sys pid_name cmdline_file binary_path R w =
      ((send_alert_email (mail_str_no_pid_file K pid_name w.mail_addrs) w).andThen
        (exec_binary K binary_path (cmdline_file.map (fun _ => sys.cmdline_file))
          sys.fork_ok)).andThen (incr_syscall_ctr K pid_name R) := by
  have e1 : check_process K sys pid_name cmdline_file binary_path R w =
      ((send_alert_email (mail_str_not_running K pid_name w.mail_addrs) w).andThen
        (exec_binary K binary_path (cmdline_file.map (fun _ => sys.cmdline_file))
          sys.fork_ok)).andThen (incr_syscall_ctr K pid_name R) := by
    unfold check_process
    rw [hl]
    simp only [hk, if_true]
  have e2 : check_process K sys.without_pid_file pid_name cmdline_file binary_path R w =
      ((send_alert_email (mail_str_no_pid_file K pid_name w.mail_addrs) w).andThen
        (exec_binary K binary_path (cmdline_file.map (fun _ => sys.cmdline_file))
          sys.fork_ok)).andThen (incr_syscall_ctr K pid_name R) := by
    unfold check_process Sys.without_pid_file
    rfl
  have em : mail_str_not_running K pid_name w.mail_addrs =
      mail_str_no_pid_file K pid_name w.mail_addrs := rfl
  refine ⟨em, ?_, ?_⟩
  · rw [e1, e2, em]
  · rw [e1, em]

/-- C11 at a concrete input: `psad` with a pid file holding 99999 and no such
process, against the same call without pid file. -/
theorem C11_witness :
    check_process example_header dead_pid_sys "psad".toList none "/usr/sbin/psad".toList 10
        (World.init "root@localhost".toList "/bin/sh".toList "/bin/mail".toList) =
      check_process example_header dead_pid_sys.without_pid_file "psad".toList none
        "/usr/sbin/psad".toList 10
        (World.init "root@localhost".toList "/bin/sh".toList "/bin/mail".toList) :=
  (C11_dead_path_same_as_missing_file example_header dead_pid_sys "psad".toList none
    "/usr/sbin/psad".toList 10
    (World.init "root@localhost".toList "/bin/sh".toList "/bin/mail".toList)
    "99999\n".toList rfl rfl).2.1

/-! ### Independence of the counters (C12) -/

theorem incr_syscall_ctr_of_unmonitored (K : Header) (pid_name : CStr) (R : Nat) (w : World)
    (hn : ¬ monitored pid_name) : incr_syscall_ctr K pid_name R w = w := by
  unfold monitored at hn
  unfold incr_syscall_ctr
  rw [if_neg (fun h => hn (Or.inl h)), if_neg (fun h => hn (Or.inr (Or.inr h))),
    if_neg (fun h => hn (Or.inr (Or.inl h)))]

theorem reset_syscall_ctr_of_unmonitored (pid_name : CStr) (w : World)
    (hn : ¬ monitored pid_name) : reset_syscall_ctr pid_name w = w := by
  unfold monitored at hn
  unfold reset_syscall_ctr
  rw [if_neg (fun h => hn (Or.inl h)), if_neg (fun h => hn (Or.inr (Or.inr h))),
    if_neg (fun h => hn (Or.inr (Or.inl h)))]

theorem ctr_set_ctr_of_ne (w : World) (n m : CStr) (v : Int) (hne : m ≠ n) :
    (w.set_ctr n v).ctr m = w.ctr m := by
  unfold World.set_ctr
  split_ifs with h1 h2 h3
  · subst h1; simp only [World.ctr, if_neg hne]
  · subst h2; simp only [World.ctr, if_neg hne]
  · subst h3; simp only [World.ctr, if_neg hne]
  · rfl

/-- `incr_syscall_ctr` leaves the counter of every other name alone. -/
theorem ctr_incr_syscall_ctr_of_ne (K : Header) (n m : CStr) (R : Nat) (w : World)
    (hne : m ≠ n) : (incr_syscall_ctr K n R w).ctr m = w.ctr m := by
  by_cases hn : monitored n
  · rw [incr_syscall_ctr_eq K n R w hn]
    split_ifs
    · rw [ctr_give_up, ctr_set_ctr_of_ne _ _ _ _ hne]
    · rw [ctr_set_ctr_of_ne _ _ _ _ hne]
  · rw [incr_syscall_ctr_of_unmonitored K n R w hn]

theorem reset_syscall_ctr_eq (n : CStr) (w : World) :
    reset_syscall_ctr n w = w.set_ctr n 0 := rfl

/-- `reset_syscall_ctr` leaves the counter of every other name alone. -/
theorem ctr_reset_syscall_ctr_of_ne (n m : CStr) (w : World) (hne : m ≠ n) :
    (reset_syscall_ctr n w).ctr m = w.ctr m := by
  rw [reset_syscall_ctr_eq, ctr_set_ctr_of_ne _ _ _ _ hne]

/-- C12: the three failure counters are independent.  For each of the names
psad, kmsgsd and diskmond, `incr_syscall_ctr` and `reset_syscall_ctr` change
the counter of that name only: the two other counters are as before.  For
any other name both operations return the state unchanged, so no counter
changes and `give_up` does not run. -/
theorem C12_counters_independent (K : Header) (R : Nat) (w : World) :
    ((incr_syscall_ctr K "psad".toList R w).kmsgsd_syscalls_ctr = w.kmsgsd_syscalls_ctr ∧
      (incr_syscall_ctr K "psad".toList R w).diskmond_syscalls_ctr = w.diskmond_syscalls_ctr ∧
      (reset_syscall_ctr "psad".toList w).kmsgsd_syscalls_ctr = w.kmsgsd_syscalls_ctr ∧
      (reset_syscall_ctr "psad".toList w).diskmond_syscalls_ctr = w.diskmond_syscalls_ctr) ∧
    ((incr_syscall_ctr K "kmsgsd".toList R w).psad_syscalls_ctr = w.psad_syscalls_ctr ∧
      (incr_syscall_ctr K "kmsgsd".toList R w).diskmond_syscalls_ctr =
        w.diskmond_syscalls_ctr ∧
      (reset_syscall_ctr "kmsgsd".toList w).psad_syscalls_ctr = w.psad_syscalls_ctr ∧
      (reset_syscall_ctr "kmsgsd".toList w).diskmond_syscalls_ctr = w.diskmond_syscalls_ctr) ∧
    ((incr_syscall_ctr K "diskmond".toList R w).psad_syscalls_ctr = w.psad_syscalls_ctr ∧
      (incr_syscall_ctr K "diskmond".toList R w).kmsgsd_syscalls_ctr = w.kmsgsd_syscalls_ctr ∧
      (reset_syscall_ctr "diskmond".toList w).psad_syscalls_ctr = w.psad_syscalls_ctr ∧
      (reset_syscall_ctr "diskmond".toList w).kmsgsd_syscalls_ctr = w.kmsgsd_syscalls_ctr) ∧
    (∀ pid_name, ¬ monitored pid_name →
      incr_syscall_ctr K pid_name R w = w ∧ reset_syscall_ctr pid_name w = w) := by
  have hk : (w.kmsgsd_syscalls_ctr : Int) = w.ctr "kmsgsd".toList := by
    simp [World.ctr, kmsgsd_ne_psad, kmsgsd_ne_diskmond]
  have hp : (w.psad_syscalls_ctr : Int) = w.ctr "psad".toList := by simp [World.ctr]
  have hd : (w.diskmond_syscalls_ctr : Int) = w.ctr "diskmond".toList := by
    simp [World.ctr, diskmond_ne_psad]
  have gk : ∀ v : World, v.kmsgsd_syscalls_ctr = v.ctr "kmsgsd".toList := fun v => by
    simp [World.ctr, kmsgsd_ne_psad, kmsgsd_ne_diskmond]
  have gp : ∀ v : World, v.psad_syscalls_ctr = v.ctr "psad".toList := fun v => by
    simp [World.ctr]
  have gd : ∀ v : World, v.diskmond_syscalls_ctr = v.ctr "diskmond".toList := fun v => by
    simp [World.ctr, diskmond_ne_psad]
  refine ⟨⟨?_, ?_, ?_, ?_⟩, ⟨?_, ?_, ?_, ?_⟩, ⟨?_, ?_, ?_, ?_⟩, ?_⟩
  · rw [gk, gk w]; exact ctr_incr_syscall_ctr_of_ne K _ _ R w kmsgsd_ne_psad
  · rw [gd, gd w]; exact ctr_incr_syscall_ctr_of_ne K _ _ R w diskmond_ne_psad
  · rw [gk, gk w]; exact ctr_reset_syscall_ctr_of_ne _ _ w kmsgsd_ne_psad
  · rw [gd, gd w]; exact ctr_reset_syscall_ctr_of_ne _ _ w diskmond_ne_psad
  · rw [gp, gp w]; exact ctr_incr_syscall_ctr_of_ne K _ _ R w (Ne.symm kmsgsd_ne_psad)
  · rw [gd, gd w]; exact ctr_incr_syscall_ctr_of_ne K _ _ R w (Ne.symm kmsgsd_ne_diskmond)
  · rw [gp, gp w]; exact ctr_reset_syscall_ctr_of_ne _ _ w (Ne.symm kmsgsd_ne_psad)
  · rw [gd, gd w]; exact ctr_reset_syscall_ctr_of_ne _ _ w (Ne.symm kmsgsd_ne_diskmond)
  · rw [gp, gp w]; exact ctr_incr_syscall_ctr_of_ne K _ _ R w (Ne.symm diskmond_ne_psad)
  · rw [gk, gk w]; exact ctr_incr_syscall_ctr_of_ne K _ _ R w kmsgsd_ne_diskmond
  · rw [gp, gp w]; exact ctr_reset_syscall_ctr_of_ne _ _ w (Ne.symm diskmond_ne_psad)
  · rw [gk, gk w]; exact ctr_reset_syscall_ctr_of_ne _ _ w kmsgsd_ne_diskmond
  · intro pid_name hn
    exact ⟨incr_syscall_ctr_of_unmonitored K pid_name R w hn,
      reset_syscall_ctr_of_unmonitored pid_name w hn⟩

/-- C12 at a concrete input: a failure of `psad` that gives up, and a call
for the name `sshd`, which has no counter. -/
theorem C12_witness :
    (incr_syscall_ctr example_header "psad".toList 3
        { World.init [] [] [] with psad_syscalls_ctr := 2, kmsgsd_syscalls_ctr := 1,
                                   diskmond_syscalls_ctr := 2 }).kmsgsd_syscalls_ctr = 1 ∧
    incr_syscall_ctr example_header "sshd".toList 0 (World.init [] [] []) =
      World.init [] [] [] :=
  ⟨(C12_counters_independent example_header 3
      { World.init [] [] [] with psad_syscalls_ctr := 2, kmsgsd_syscalls_ctr := 1,
                                 diskmond_syscalls_ctr := 2 }).1.1,
   ((C12_counters_independent example_header 0 (World.init [] [] [])).2.2.2
      "sshd".toList (by decide)).1⟩

/-! ### A pid file that opens but cannot be read (C17) -/

/-- C17: a `check_process` call in which the pid file opens but `fgets` reads
no line returns the state it was given: the three counters are unchanged, no
alert is sent and no restart is made, so the counter of the process is
neither reset to 0 nor incremented. -/
theorem C17_unread_pid_file_no_effect (K : Header) (sys : Sys) (pid_name : CStr)
    (cmdline_file : Option CStr) (binary_path : CStr) (R : Nat) (w : World)
    (hp : sys.pid_file = FileRead.no_line) :
    check_process K sys pid_name cmdline_file binary_path R w = w ∧
    (check_process K sys pid_name cmdline_file binary_path R w).psad_syscalls_ctr =
      w.psad_syscalls_ctr ∧
    (check_process K sys pid_name cmdline_file binary_path R w).kmsgsd_syscalls_ctr =
      w.kmsgsd_syscalls_ctr ∧
    (check_process K sys pid_name cmdline_file binary_path R w).diskmond_syscalls_ctr =
      w.diskmond_syscalls_ctr ∧
    (check_process K sys pid_name cmdline_file binary_path R w).trace = w.trace ∧
    (check_process K sys pid_name cmdline_file binary_path R w).status = w.status := by
  have e : check_process K sys pid_name cmdline_file binary_path R w = w := by
    unfold check_process
    rw [hp]
  rw [e]
  exact ⟨rfl, rfl, rfl, rfl, rfl, rfl⟩

/-- C17 at a concrete input: `kmsgsd` with 5 failures counted and an empty
pid file: the counter stays 5, neither 0 nor 6. -/
theorem C17_witness :
    (check_process example_header no_pid_line_sys "kmsgsd".toList none
        "/usr/sbin/kmsgsd".toList 10
        { World.init [] [] [] with kmsgsd_syscalls_ctr := 5 }).kmsgsd_syscalls_ctr = 5 :=
  (C17_unread_pid_file_no_effect example_header no_pid_line_sys "kmsgsd".toList none
    "/usr/sbin/kmsgsd".toList 10 { World.init [] [] [] with kmsgsd_syscalls_ctr := 5 }
    rfl).2.2.1

/-! ### The counters of a running watchdog (C15) -/

theorem ctrs_below_set_ctr (w : World) (R : Nat) (n : CStr) (v : Int)
    (h : w.ctrs_below R) (h0 : 0 ≤ v) (h1 : v < R) : (w.set_ctr n v).ctrs_below R := by
  unfold World.ctrs_below at h ⊢
  unfold World.set_ctr
  obtain ⟨hp, hk, hd⟩ := h
  split_ifs
  · exact ⟨⟨h0, h1⟩, hk, hd⟩
  · exact ⟨hp, hk, ⟨h0, h1⟩⟩
  · exact ⟨hp, ⟨h0, h1⟩, hd⟩
  · exact ⟨hp, hk, hd⟩

theorem ctr_of_ctrs_below (w : World) (R : Nat) (n : CStr) (h : w.ctrs_below R)
    (hn : monitored n) : 0 ≤ w.ctr n ∧ w.ctr n < R := by
  obtain ⟨hp, hk, hd⟩ := h
  rcases hn with h | h | h <;> subst h
  · simpa [World.ctr] using hp
  · simpa [World.ctr, kmsgsd_ne_psad, kmsgsd_ne_diskmond] using hk
  · simpa [World.ctr, diskmond_ne_psad] using hd

/-- `exec_binary` touches the trace and the status only. -/
theorem exec_binary_frame (K : Header) (binary : CStr) (cf : Option FileRead) (fork_ok : Bool)
    (w : World) :
    (exec_binary K binary cf fork_ok w).psad_syscalls_ctr = w.psad_syscalls_ctr ∧
    (exec_binary K binary cf fork_ok w).kmsgsd_syscalls_ctr = w.kmsgsd_syscalls_ctr ∧
    (exec_binary K binary cf fork_ok w).diskmond_syscalls_ctr = w.diskmond_syscalls_ctr := by
  unfold exec_binary
  by_cases h0 : 0 < K.MAX_ARG_LEN
  · rw [if_pos h0]
    rcases cf with _ | _ | _ | buf
    · simp only []
      generalize exec_binary_argv K binary _ = r
      cases r <;> cases fork_ok <;> exact ⟨rfl, rfl, rfl⟩
    · exact ⟨rfl, rfl, rfl⟩
    · exact ⟨rfl, rfl, rfl⟩
    · simp only []
      generalize exec_binary_argv K binary _ = r
      cases r <;> cases fork_ok <;> exact ⟨rfl, rfl, rfl⟩
  · rw [if_neg h0]; exact ⟨rfl, rfl, rfl⟩

theorem check_process_of_cannot_open (K : Header) (sys : Sys) (n : CStr) (cf : Option CStr)
    (binary : CStr) (R : Nat) (w : World) (hp : sys.pid_file = FileRead.cannot_open) :
    check_process K sys n cf binary R w =
      ((send_alert_email (mail_str_no_pid_file K n w.mail_addrs) w).andThen
        (exec_binary K binary (cf.map (fun _ => sys.cmdline_file)) sys.fork_ok)).andThen
        (incr_syscall_ctr K n R) := by
  unfold check_process
  rw [hp]

theorem check_process_of_no_line (K : Header) (sys : Sys) (n : CStr) (cf : Option CStr)
    (binary : CStr) (R : Nat) (w : World) (hp : sys.pid_file = FileRead.no_line) :
    check_process K sys n cf binary R w = w := by
  unfold check_process
  rw [hp]

theorem check_process_of_line (K : Header) (sys : Sys) (n : CStr) (cf : Option CStr)
    (binary : CStr) (R : Nat) (w : World) (l : CStr) (hp : sys.pid_file = FileRead.line l) :
    check_process K sys n cf binary R w =
      if sys.kill_ok (atoi l) = false then
        ((send_alert_email (mail_str_not_running K n w.mail_addrs) w).andThen
          (exec_binary K binary (cf.map (fun _ => sys.cmdline_file)) sys.fork_ok)).andThen
          (incr_syscall_ctr K n R)
      else reset_syscall_ctr n w := by
  unfold check_process
  rw [hp]

theorem ctrs_below_congr (w v : World) (R : Nat) (h : w.ctrs_below R)
    (e : v.psad_syscalls_ctr = w.psad_syscalls_ctr ∧
      v.kmsgsd_syscalls_ctr = w.kmsgsd_syscalls_ctr ∧
      v.diskmond_syscalls_ctr = w.diskmond_syscalls_ctr) : v.ctrs_below R := by
  unfold World.ctrs_below at h ⊢
  rw [e.1, e.2.1, e.2.2]
  exact h

/-- A failed check of a running watchdog whose counters are below
`max_retries ≤ 32767` either stops the watchdog or leaves the counters below
`max_retries`. -/
theorem ctrs_below_after_restart (K : Header) (mail_str binary : CStr) (cf : Option FileRead)
    (fork_ok : Bool) (n : CStr) (R : Nat) (w : World) (hR : R ≤ 32767)
    (h : w.ctrs_below R)
    (hrun : (((send_alert_email mail_str w).andThen (exec_binary K binary cf fork_ok)).andThen
      (incr_syscall_ctr K n R)).status = Status.running) :
    (((send_alert_email mail_str w).andThen (exec_binary K binary cf fork_ok)).andThen
      (incr_syscall_ctr K n R)).ctrs_below R := by
  have h2 : ((send_alert_email mail_str w).andThen
      (exec_binary K binary cf fork_ok)).ctrs_below R := by
    unfold World.andThen
    split
    · exact ctrs_below_congr _ _ R (show (send_alert_email mail_str w).ctrs_below R from h)
        (exec_binary_frame K binary cf fork_ok _)
    · exact h
  generalize (send_alert_email mail_str w).andThen (exec_binary K binary cf fork_ok) = w2
    at h2 hrun ⊢
  by_cases hr2 : w2.status = Status.running
  · rw [andThen_running _ _ hr2] at hrun ⊢
    by_cases hn : monitored n
    · obtain ⟨c0, c1⟩ := ctr_of_ctrs_below w2 R n h2 hn
      have hs : to_short (w2.ctr n + 1) = w2.ctr n + 1 :=
        to_short_of_range _ (by omega) (by omega)
      have hu : to_unsigned (w2.ctr n + 1) = (w2.ctr n + 1).toNat :=
        to_unsigned_of_nonneg _ (by omega) (by omega)
      rw [incr_syscall_ctr_eq K n R w2 hn, hs, hu] at hrun ⊢
      by_cases hge : R ≤ (w2.ctr n + 1).toNat
      · rw [if_pos hge] at hrun
        simp [give_up] at hrun
      · rw [if_neg hge]
        exact ctrs_below_set_ctr w2 R n _ h2 (by omega) (by omega)
    · rw [incr_syscall_ctr_of_unmonitored K n R w2 hn]
      exact h2
  · rw [andThen_not_running _ _ hr2]
    exact h2

/-- One `check_process` call keeps the counters of a running watchdog below
`max_retries`. -/
theorem ctrs_below_check_process (K : Header) (sys : Sys) (n : CStr) (cf : Option CStr)
    (binary : CStr) (R : Nat) (w : World) (hR1 : 1 ≤ R) (hR : R ≤ 32767)
    (h : w.ctrs_below R)
    (hrun : (check_process K sys n cf binary R w).status = Status.running) :
    (check_process K sys n cf binary R w).ctrs_below R := by
  cases hp : sys.pid_file with
  | cannot_open =>
    rw [check_process_of_cannot_open K sys n cf binary R w hp] at hrun ⊢
    exact ctrs_below_after_restart K _ _ _ _ n R w hR h hrun
  | no_line =>
    rw [check_process_of_no_line K sys n cf binary R w hp]
    exact h
  | line l =>
    rw [check_process_of_line K sys n cf binary R w l hp] at hrun ⊢
    by_cases hk : sys.kill_ok (atoi l) = false
    · rw [if_pos hk] at hrun ⊢
      exact ctrs_below_after_restart K _ _ _ _ n R w hR h hrun
    · rw [if_neg hk, reset_syscall_ctr_eq]
      exact ctrs_below_set_ctr w R n 0 h (le_refl 0) (by exact_mod_cast hR1)

theorem run_calls_ctrs_below (K : Header) (R : Nat) (hR1 : 1 ≤ R) (hR : R ≤ 32767) :
    ∀ (calls : List Call) (w : World), (w.status = Status.running → w.ctrs_below R) →
      (run_calls K R calls w).status = Status.running → (run_calls K R calls w).ctrs_below R := by
  intro calls
  induction calls with
  | nil => intro w h hrun; exact h hrun
  | cons c rest ih =>
    intro w h hrun
    simp only [run_calls] at hrun ⊢
    apply ih _ _ hrun
    intro hr1
    by_cases hw : w.status = Status.running
    · rw [andThen_running _ _ hw] at hr1 ⊢
      exact ctrs_below_check_process K c.sys c.pid_name c.cmdline_file c.binary_path R w hR1 hR
        (h hw) hr1
    · rw [andThen_not_running _ _ hw] at hr1
      exact absurd hr1 hw

/-- C15: with `max_retries` held fixed at `R`, `1 ≤ R ≤ 32767`, in every state
reached from the initial state (all counters 0, running) by a sequence of
`check_process` calls, with any names, arguments and answers of the system,
after which the watchdog is still running, each of the three failure
counters `c` satisfies `0 ≤ c < R`. -/
theorem C15_counters_below_max_retries (K : Header) (R : Nat) (calls : List Call)
    (mail_addrs shCmd mailCmd : CStr) (hR1 : 1 ≤ R) (hR : R ≤ 32767)
    (hrun : (run_calls K R calls (World.init mail_addrs shCmd mailCmd)).status =
      Status.running) :
    (run_calls K R calls (World.init mail_addrs shCmd mailCmd)).ctrs_below R := by
  apply run_calls_ctrs_below K R hR1 hR calls _ _ hrun
  intro _
  have h0 : (0 : Int) < R := by exact_mod_cast hR1
  exact ⟨⟨le_refl 0, h0⟩, ⟨le_refl 0, h0⟩, ⟨le_refl 0, h0⟩⟩

/-- C15 at a concrete input: `max_retries = 3`, two failed checks of `psad`
and one of `kmsgsd`. -/
theorem C15_witness :
    (run_calls example_header 3
      [⟨no_pid_file_sys, "psad".toList, none, "/usr/sbin/psad".toList⟩,
        ⟨dead_pid_sys, "kmsgsd".toList, none, "/usr/sbin/kmsgsd".toList⟩,
        ⟨no_pid_file_sys, "psad".toList, none, "/usr/sbin/psad".toList⟩]
      (World.init [] [] [])).ctrs_below 3 :=
  C15_counters_below_max_retries example_header 3
    [⟨no_pid_file_sys, "psad".toList, none, "/usr/sbin/psad".toList⟩,
      ⟨dead_pid_sys, "kmsgsd".toList, none, "/usr/sbin/kmsgsd".toList⟩,
      ⟨no_pid_file_sys, "psad".toList, none, "/usr/sbin/psad".toList⟩]
    [] [] [] (by decide) (by decide) (by decide)

/-! ### Comment lines and blank lines of the config file (C14) -/

theorem is_config_line_of_comment (config_buf : CStr) (h : is_comment_or_blank config_buf) :
    is_config_line (skip_whitespace config_buf) = false := by
  unfold is_comment_or_blank at h
  unfold is_config_line
  cases hs : skip_whitespace config_buf with
  | nil => rw [hs] at h; simp at h
  | cons c cs =>
    rw [hs] at h
    simp only [List.head?_cons, Option.some.injEq] at h
    rcases h with h | h | h <;> subst h <;> rfl

theorem parse_config_line_of_comment (config_buf : CStr) (v : ParseVars)
    (h : is_comment_or_blank config_buf) : parse_config_line config_buf v = v := by
  unfold parse_config_line
  simp only [is_config_line_of_comment config_buf h]
  rfl

theorem foldl_parse_config_line_of_comments (lines : List CStr) (v : ParseVars)
    (h : ∀ l ∈ lines, is_comment_or_blank l) :
    lines.foldl (fun v config_buf => parse_config_line config_buf v) v = v := by
  induction lines generalizing v with
  | nil => rfl
  | cons l ls ih =>
    rw [List.foldl_cons, parse_config_line_of_comment l v (h l (List.mem_cons_self _ _))]
    exact ih v (fun x hx => h x (List.mem_cons_of_mem _ hx))

/-- A last line without newline that holds blanks only is not skipped by the
test of line 472, but `find_char_var` finds none of the keys in it. -/
theorem parse_config_line_of_blank_end (config_buf : CStr) (v : ParseVars)
    (h : skip_whitespace config_buf = []) : parse_config_line config_buf v = v := by
  unfold parse_config_line
  rw [h]
  simp [is_config_line, find_char_var]

/-! ### Bounds of the tokenizer (C16) -/

theorem scan_non_ws_none (l : CStr) (h : ∀ c ∈ l, is_blank c = false ∧ c ≠ '\n') :
    scan_non_ws l = none := by
  induction l with
  | nil => rfl
  | cons c cs ih =>
    obtain ⟨h1, h2⟩ := h c (List.mem_cons_self _ _)
    have hc : ¬ (c = ' ' ∨ c = '\t' ∨ c = '\n') := by
      rintro (h | h | h)
      · rw [h] at h1; exact absurd h1 (by decide)
      · rw [h] at h1; exact absurd h1 (by decide)
      · exact h2 h
    rw [scan_non_ws, if_neg hc, ih (fun x hx => h x (List.mem_cons_of_mem _ hx))]

theorem dropWhile_blank_append_nonblank (b : CStr) (d : Char) (hd : is_blank d = false) :
    (b ++ [d]).dropWhile is_blank = b.dropWhile is_blank ++ [d] := by
  induction b with
  | nil =>
    rw [List.nil_append, List.dropWhile_cons_of_neg (by simp [hd])]
    rfl
  | cons c cs ih =>
    by_cases h : is_blank c = true
    · rw [List.cons_append, List.dropWhile_cons_of_pos h, List.dropWhile_cons_of_pos h, ih]
    · rw [List.cons_append, List.dropWhile_cons_of_neg h, List.dropWhile_cons_of_neg h]
      rfl

/-- On a buffer without newline and NUL whose last character is not a blank,
the tokenizer never finishes in bounds: the inner loop runs over the
terminating NUL at the last token, unless a store has left `prog_argv`
before. -/
theorem tokenize_loop_leaves_buffer (M : Nat) (d : Char) (hd : is_blank d = false)
    (hd1 : d ≠ '\n') (hd0 : d ≠ '\x00') :
    ∀ (fuel : Nat) (pre : CStr) (argv : List CStr),
      pre.length + 1 < fuel →
      (∀ c ∈ pre, c ≠ '\n' ∧ c ≠ '\x00') →
      tokenize_loop M fuel (skip_whitespace (pre ++ [d])) argv = Except.error Fault.overread ∨
      tokenize_loop M fuel (skip_whitespace (pre ++ [d])) argv =
        Except.error Fault.argv_overflow := by
  intro fuel
  induction fuel with
  | zero => intro pre argv h; omega
  | succ n ih =>
    intro pre argv hlen hpre
    rw [skip_whitespace_eq, dropWhile_blank_append_nonblank pre d hd]
    have hsub : ∀ c ∈ pre.dropWhile is_blank, c ∈ pre :=
      fun c hc => (List.dropWhile_sublist is_blank).subset hc
    have hlen1 : (pre.dropWhile is_blank).length ≤ pre.length :=
      (List.dropWhile_sublist is_blank).length_le
    have hhead : ∀ c cs, pre.dropWhile is_blank = c :: cs → is_blank c = false := by
      intro c cs h
      have := List.head_dropWhile_not is_blank pre (by rw [h]; exact List.cons_ne_nil _ _)
      simpa [h] using this
    generalize pre.dropWhile is_blank = p1 at hsub hlen1 hhead
    have hsplit := List.takeWhile_append_dropWhile (fun x => !is_blank x) p1
    have htok : ∀ x ∈ p1.takeWhile (fun x => !is_blank x), is_blank x = false ∧ x ≠ '\n' := by
      intro x hx
      refine ⟨by simpa using List.mem_takeWhile_imp hx, ?_⟩
      exact (hpre x (hsub x ((List.takeWhile_sublist _).subset hx))).1
    have hrest_sub : ∀ x ∈ p1.dropWhile (fun x => !is_blank x), x ∈ pre :=
      fun x hx => hsub x ((List.dropWhile_sublist _).subset hx)
    have hrest_head : ∀ sep r, p1.dropWhile (fun x => !is_blank x) = sep :: r →
        is_blank sep = true := by
      intro sep r h
      have := List.head_dropWhile_not (fun x => !is_blank x) p1
        (by rw [h]; exact List.cons_ne_nil _ _)
      simpa [h] using this
    have hrest_len : (p1.dropWhile (fun x => !is_blank x)).length ≤ p1.length :=
      (List.dropWhile_sublist _).length_le
    have hne : p1 ++ [d] ≠ [] := by simp
    have hfirst : ∀ c cs, p1 ++ [d] = c :: cs → ¬ (c = '\n' ∨ c = '\x00') := by
      intro c cs h
      cases p1 with
      | nil =>
        simp only [List.nil_append, List.cons.injEq] at h
        rw [← h.1]
        rintro (h2 | h2)
        · exact hd1 h2
        · exact hd0 h2
      | cons x xs =>
        simp only [List.cons_append, List.cons.injEq] at h
        rw [← h.1]
        obtain ⟨a1, a2⟩ := hpre x (hsub x (List.mem_cons_self _ _))
        rintro (h2 | h2)
        · exact a1 h2
        · exact a2 h2
    generalize p1.takeWhile (fun x => !is_blank x) = tok at hsplit htok
    generalize p1.dropWhile (fun x => !is_blank x) = rest at hsplit hrest_sub hrest_head hrest_len
    cases hsh : p1 ++ [d] with
    | nil => exact absurd hsh hne
    | cons c cs =>
      rw [tokenize_loop, if_neg (hfirst c cs hsh), ← hsh]
      cases rest with
      | nil =>
        rw [List.append_nil] at hsplit
        have hall : ∀ x ∈ p1 ++ [d], is_blank x = false ∧ x ≠ '\n' := by
          intro x hx
          rcases List.mem_append.mp hx with hx | hx
          · rw [← hsplit] at hx; exact htok x hx
          · rw [List.mem_singleton.mp hx]; exact ⟨hd, hd1⟩
        rw [scan_non_ws_none _ hall]
        exact Or.inl rfl
      | cons sep r =>
        have hscan : scan_non_ws (p1 ++ [d]) = some (tok, sep :: (r ++ [d])) := by
          rw [← hsplit, List.append_assoc]
          exact scan_non_ws_stops tok sep (r ++ [d]) htok (Or.inl (hrest_head sep r rfl))
        rw [hscan]
        simp only
        by_cases hroom : argv.length < M
        · rw [if_pos hroom]
          have hl := congrArg List.length hsplit
          simp only [List.length_append, List.length_cons] at hl hrest_len
          have htl : 1 ≤ tok.length := by
            cases tok with
            | nil =>
              rw [List.nil_append] at hsplit
              have h1 := hhead sep r hsplit.symm
              rw [hrest_head sep r rfl] at h1
              exact absurd h1 (by decide)
            | cons t ts => simp
          have := ih (sep :: r) (argv ++ [c_string tok])
            (by simp only [List.length_cons]; omega)
            (fun x hx => hpre x (hrest_sub x hx))
          rw [List.cons_append] at this
          exact this
        · rw [if_neg hroom]
          exact Or.inr rfl

/-- For every line without newline and without NUL that ends in a character
other than space and tab, `exec_binary` does not build its argument vector
in bounds. -/
theorem exec_binary_argv_without_newline (K : Header) (binary pre : CStr) (d : Char)
    (hd : is_blank d = false) (hd1 : d ≠ '\n') (hd0 : d ≠ '\x00')
    (hpre : ∀ c ∈ pre, c ≠ '\n' ∧ c ≠ '\x00') :
    exec_binary_argv K binary (some (pre ++ [d])) = Except.error Fault.overread ∨
    exec_binary_argv K binary (some (pre ++ [d])) = Except.error Fault.argv_overflow := by
  unfold exec_binary_argv
  by_cases h0 : 0 < K.MAX_ARG_LEN
  · rw [if_pos h0]
    simp only
    rcases tokenize_loop_leaves_buffer K.MAX_ARG_LEN d hd hd1 hd0 ((pre ++ [d]).length + 1) pre
      [strlcpy binary K.MAX_ARG_LEN] (by simp) hpre with h | h
    · rw [h]; exact Or.inl rfl
    · rw [h]; exact Or.inr rfl
  · rw [if_neg h0]; exact Or.inr rfl

/-- C16 fails on the code (with `MAX_ARG_LEN = 30`): on the line `-i eth0`
without trailing newline the inner loop of the tokenizer steps over the
terminating NUL while it scans `eth0` and reads behind it; on a line of 29
tokens the tokenizer stores outside `prog_argv`.  With the newline the first
line is tokenized in bounds. -/
theorem C16_tokenizer_out_of_bounds :
    scan_non_ws "eth0".toList = none ∧
    exec_binary_argv example_header "/usr/sbin/psad".toList (some "-i eth0".toList) =
      Except.error Fault.overread ∧
    exec_binary_argv example_header "/usr/sbin/psad".toList (some "-i eth0\n".toList) =
      Except.ok ["/usr/sbin/psad".toList, "-i".toList, "eth0".toList] ∧
    exec_binary_argv example_header "/usr/sbin/psad".toList
        (some "a b c d e f g h i j k l m n o p q r s t u v w x y z A B C\n".toList) =
      Except.error Fault.argv_overflow := by
  decide

/-! ### One pass of the main loop (C13) -/

theorem ctr_congr (v w : World) (m : CStr)
    (e : v.psad_syscalls_ctr = w.psad_syscalls_ctr ∧
      v.kmsgsd_syscalls_ctr = w.kmsgsd_syscalls_ctr ∧
      v.diskmond_syscalls_ctr = w.diskmond_syscalls_ctr) : v.ctr m = w.ctr m := by
  unfold World.ctr
  rw [e.1, e.2.1, e.2.2]

theorem kmsgsd_ctr_eq (v : World) : v.kmsgsd_syscalls_ctr = v.ctr "kmsgsd".toList := by
  simp [World.ctr, kmsgsd_ne_psad, kmsgsd_ne_diskmond]

theorem diskmond_ctr_eq (v : World) : v.diskmond_syscalls_ctr = v.ctr "diskmond".toList := by
  simp [World.ctr, diskmond_ne_psad]

/-- The restart path of `check_process` leaves the counter of every other
name alone. -/
theorem ctr_restart_of_ne (K : Header) (mail_str binary : CStr) (cf : Option FileRead)
    (fork_ok : Bool) (n m : CStr) (R : Nat) (w : World) (hne : m ≠ n) :
    (((send_alert_email mail_str w).andThen (exec_binary K binary cf fork_ok)).andThen
      (incr_syscall_ctr K n R)).ctr m = w.ctr m := by
  have h2 : ((send_alert_email mail_str w).andThen (exec_binary K binary cf fork_ok)).ctr m =
      w.ctr m := by
    unfold World.andThen
    split
    · rw [ctr_congr _ _ m (exec_binary_frame K binary cf fork_ok _)]
      rfl
    · rfl
  generalize (send_alert_email mail_str w).andThen (exec_binary K binary cf fork_ok) = w2 at h2 ⊢
  unfold World.andThen
  split
  · rw [ctr_incr_syscall_ctr_of_ne K n m R w2 hne, h2]
  · exact h2

/-- A `check_process` call leaves the counter of every other name alone. -/
theorem ctr_check_process_of_ne (K : Header) (sys : Sys) (n : CStr) (cf : Option CStr)
    (binary : CStr) (R : Nat) (w : World) (m : CStr) (hne : m ≠ n) :
    (check_process K sys n cf binary R w).ctr m = w.ctr m := by
  cases hp : sys.pid_file with
  | cannot_open =>
    rw [check_process_of_cannot_open K sys n cf binary R w hp]
    exact ctr_restart_of_ne K _ _ _ _ n m R w hne
  | no_line => rw [check_process_of_no_line K sys n cf binary R w hp]
  | line l =>
    rw [check_process_of_line K sys n cf binary R w l hp]
    split_ifs
    · exact ctr_restart_of_ne K _ _ _ _ n m R w hne
    · exact ctr_reset_syscall_ctr_of_ne n m w hne

theorem trace_exec_binary_extends (K : Header) (binary : CStr) (cf : Option FileRead)
    (fork_ok : Bool) (w : World) :
    ∃ evs, (exec_binary K binary cf fork_ok w).trace = w.trace ++ evs := by
  unfold exec_binary
  by_cases h0 : 0 < K.MAX_ARG_LEN
  · rw [if_pos h0]
    rcases cf with _ | _ | _ | buf
    · simp only []
      generalize exec_binary_argv K binary _ = r
      cases r <;> cases fork_ok <;>
        first | exact ⟨[], (List.append_nil _).symm⟩ | exact ⟨_, rfl⟩
    · exact ⟨[], (List.append_nil _).symm⟩
    · exact ⟨[], (List.append_nil _).symm⟩
    · simp only []
      generalize exec_binary_argv K binary _ = r
      cases r <;> cases fork_ok <;>
        first | exact ⟨[], (List.append_nil _).symm⟩ | exact ⟨_, rfl⟩
  · rw [if_neg h0]; exact ⟨[], (List.append_nil _).symm⟩

theorem trace_andThen_extends (w : World) (f : World → World)
    (hf : ∀ v, ∃ evs, (f v).trace = v.trace ++ evs) :
    ∃ evs, (w.andThen f).trace = w.trace ++ evs := by
  unfold World.andThen
  split
  · exact hf w
  · exact ⟨[], (List.append_nil _).symm⟩

/-- A `check_process` call only appends to the trace. -/
theorem trace_check_process_extends (K : Header) (sys : Sys) (n : CStr) (cf : Option CStr)
    (binary : CStr) (R : Nat) (w : World) :
    ∃ evs, (check_process K sys n cf binary R w).trace = w.trace ++ evs := by
  have hrestart : ∀ mail_str : CStr,
      ∃ evs, (((send_alert_email mail_str w).andThen
        (exec_binary K binary (cf.map (fun _ => sys.cmdline_file)) sys.fork_ok)).andThen
        (incr_syscall_ctr K n R)).trace = w.trace ++ evs := by
    intro mail_str
    obtain ⟨e2, h2⟩ := trace_andThen_extends (send_alert_email mail_str w)
      (exec_binary K binary (cf.map (fun _ => sys.cmdline_file)) sys.fork_ok)
      (fun v => trace_exec_binary_extends K _ _ _ v)
    obtain ⟨e3, h3⟩ := trace_andThen_extends
      ((send_alert_email mail_str w).andThen
        (exec_binary K binary (cf.map (fun _ => sys.cmdline_file)) sys.fork_ok))
      (incr_syscall_ctr K n R) (fun v => trace_incr_syscall_ctr K n R v)
    refine ⟨[Event.send_alert_email w.shCmd w.mailCmd mail_str] ++ e2 ++ e3, ?_⟩
    rw [h3, h2]
    simp [send_alert_email]
  cases hp : sys.pid_file with
  | cannot_open =>
    rw [check_process_of_cannot_open K sys n cf binary R w hp]
    exact hrestart _
  | no_line =>
    rw [check_process_of_no_line K sys n cf binary R w hp]
    exact ⟨[], (List.append_nil _).symm⟩
  | line l =>
    rw [check_process_of_line K sys n cf binary R w l hp]
    split_ifs
    · exact hrestart _
    · rw [reset_syscall_ctr_eq, trace_set_ctr]
      exact ⟨[], (List.append_nil _).symm⟩

/-- When the three checks leave the watchdog stopped, the pass ends there:
the settings and the recorded modification time are as before. -/
theorem main_loop_tick_of_stopped (K : Header) (env : TickSys) (s : MainState)
    (h : (main_loop_checks K env s.cfg s.w).status ≠ Status.running) :
    main_loop_tick K env s = { s with w := main_loop_checks K env s.cfg s.w } := by
  unfold main_loop_tick
  generalize main_loop_checks K env s.cfg s.w = w3 at h ⊢
  cases hs : w3.status with
  | running => exact absurd hs h
  | exited c => simp only [hs]
  | undefined f => simp only [hs]

/-- C13: in a pass of the main loop of a running watchdog the checks are made
in the order psad, kmsgsd, diskmond (`c1`, `c2`, `c3` are the states after
them, the trace growing in that order).  When the check of psad ends the
watchdog (it gives up), the pass ends in the state `c1`: kmsgsd and diskmond
are not checked, their counters are those from before the pass, and the
settings and the recorded modification time are untouched, so no reload is
made.  When the check of kmsgsd ends it, the pass ends in `c2`: diskmond is
not checked and no reload is made.  When the check of diskmond ends it, the
pass ends in `c3` and no reload is made. -/
theorem C13_give_up_ends_the_pass (K : Header) (env : TickSys) (s : MainState)
    (c1 c2 c3 : World) (hrun : s.w.status = Status.running)
    (h1 : c1 = check_process K env.psad "psad".toList (some s.cfg.psad_cmdline_file)
      s.cfg.psadCmd s.cfg.psadwatchd_max_retries s.w)
    (h2 : c2 = check_process K env.kmsgsd "kmsgsd".toList none s.cfg.kmsgsdCmd
      s.cfg.psadwatchd_max_retries c1)
    (h3 : c3 = check_process K env.diskmond "diskmond".toList none s.cfg.diskmondCmd
      s.cfg.psadwatchd_max_retries c2) :
    (∃ e1 e2 e3, c1.trace = s.w.trace ++ e1 ∧ c2.trace = s.w.trace ++ e1 ++ e2 ∧
      c3.trace = s.w.trace ++ e1 ++ e2 ++ e3) ∧
    (c1.status = Status.running → c2.status = Status.running →
      main_loop_checks K env s.cfg s.w = c3) ∧
    (c1.status ≠ Status.running →
      main_loop_tick K env s = { s with w := c1 } ∧
      c1.kmsgsd_syscalls_ctr = s.w.kmsgsd_syscalls_ctr ∧
      c1.diskmond_syscalls_ctr = s.w.diskmond_syscalls_ctr) ∧
    (c1.status = Status.running → c2.status ≠ Status.running →
      main_loop_tick K env s = { s with w := c2 } ∧
      c2.diskmond_syscalls_ctr = s.w.diskmond_syscalls_ctr) ∧
    (c1.status = Status.running → c2.status = Status.running →
      c3.status ≠ Status.running → main_loop_tick K env s = { s with w := c3 }) := by
  have hc1 : s.w.andThen (check_process K env.psad "psad".toList
      (some s.cfg.psad_cmdline_file) s.cfg.psadCmd s.cfg.psadwatchd_max_retries) = c1 := by
    rw [andThen_running _ _ hrun, h1]
  have hchecks : main_loop_checks K env s.cfg s.w =
      (c1.andThen (check_process K env.kmsgsd "kmsgsd".toList none s.cfg.kmsgsdCmd
        s.cfg.psadwatchd_max_retries)).andThen
        (check_process K env.diskmond "diskmond".toList none s.cfg.diskmondCmd
          s.cfg.psadwatchd_max_retries) := by
    unfold main_loop_checks
    rw [hc1]
  refine ⟨?_, ?_, ?_, ?_, ?_⟩
  · obtain ⟨e1, t1⟩ := trace_check_process_extends K env.psad "psad".toList
      (some s.cfg.psad_cmdline_file) s.cfg.psadCmd s.cfg.psadwatchd_max_retries s.w
    obtain ⟨e2, t2⟩ := trace_check_process_extends K env.kmsgsd "kmsgsd".toList none
      s.cfg.kmsgsdCmd s.cfg.psadwatchd_max_retries c1
    obtain ⟨e3, t3⟩ := trace_check_process_extends K env.diskmond "diskmond".toList none
      s.cfg.diskmondCmd s.cfg.psadwatchd_max_retries c2
    rw [← h1] at t1
    rw [← h2] at t2
    rw [← h3] at t3
    exact ⟨e1, e2, e3, t1, by rw [t2, t1], by rw [t3, t2, t1]⟩
  · intro r1 r2
    rw [hchecks, andThen_running _ _ r1, ← h2, andThen_running _ _ r2, ← h3]
  · intro r1
    have e : main_loop_checks K env s.cfg s.w = c1 := by
      rw [hchecks, andThen_not_running _ _ r1, andThen_not_running _ _ r1]
    refine ⟨?_, ?_, ?_⟩
    · rw [main_loop_tick_of_stopped K env s (by rw [e]; exact r1), e]
    · rw [kmsgsd_ctr_eq, kmsgsd_ctr_eq s.w, h1]
      exact ctr_check_process_of_ne K _ _ _ _ _ s.w _ kmsgsd_ne_psad
    · rw [diskmond_ctr_eq, diskmond_ctr_eq s.w, h1]
      exact ctr_check_process_of_ne K _ _ _ _ _ s.w _ diskmond_ne_psad
  · intro r1 r2
    have e : main_loop_checks K env s.cfg s.w = c2 := by
      rw [hchecks, andThen_running _ _ r1, ← h2, andThen_not_running _ _ r2]
    refine ⟨?_, ?_⟩
    · rw [main_loop_tick_of_stopped K env s (by rw [e]; exact r2), e]
    · rw [diskmond_ctr_eq, diskmond_ctr_eq s.w, h2,
        ctr_check_process_of_ne K _ _ _ _ _ c1 _ (Ne.symm kmsgsd_ne_diskmond), h1]
      exact ctr_check_process_of_ne K _ _ _ _ _ s.w _ diskmond_ne_psad
  · intro r1 r2 r3
    have e : main_loop_checks K env s.cfg s.w = c3 := by
      rw [hchecks, andThen_running _ _ r1, ← h2, andThen_running _ _ r2, ← h3]
    rw [main_loop_tick_of_stopped K env s (by rw [e]; exact r3), e]

/-- C13 at a concrete input: `max_retries = 3`, psad has failed twice, all
three pid files are missing and the config file has changed.  The check of
psad gives up; the pass ends with the restart mail, the spawn and the give-up
mail of psad in the trace and nothing else, the counters of kmsgsd and
diskmond and the settings as before, and the modification time 100 still
recorded. -/
theorem C13_witness :
    main_loop_tick example_header all_dead_tick_sys (example_main_state 2 1 0) =
      { example_main_state 2 1 0 with
        w := check_process example_header no_pid_file_cmdline_sys "psad".toList
          (some "/var/run/psad.cmd".toList) "/usr/sbin/psad".toList 3
          (example_main_state 2 1 0).w } ∧
    (main_loop_tick example_header all_dead_tick_sys (example_main_state 2 1 0)).w.status =
      Status.exited EXIT_FAILURE ∧
    (main_loop_tick example_header all_dead_tick_sys
        (example_main_state 2 1 0)).w.kmsgsd_syscalls_ctr = 1 ∧
    (main_loop_tick example_header all_dead_tick_sys
        (example_main_state 2 1 0)).w.diskmond_syscalls_ctr = 0 ∧
    (main_loop_tick example_header all_dead_tick_sys (example_main_state 2 1 0)).w.trace =
      [Event.send_alert_email "/bin/sh".toList "/bin/mail".toList
          (mail_str_no_pid_file example_header "psad".toList "root@localhost".toList),
        Event.execve "/usr/sbin/psad".toList
          ["/usr/sbin/psad".toList, "-i".toList, "eth0".toList],
        Event.send_alert_email "/bin/sh".toList "/bin/mail".toList
          (give_up_mail_str example_header "psad".toList "root@localhost".toList)] ∧
    (main_loop_tick example_header all_dead_tick_sys (example_main_state 2 1 0)).config_mtime =
      100 ∧
    (main_loop_tick example_header all_dead_tick_sys (example_main_state 0 0 0)).w.trace =
      [Event.send_alert_email "/bin/sh".toList "/bin/mail".toList
          (mail_str_no_pid_file example_header "psad".toList "root@localhost".toList),
        Event.execve "/usr/sbin/psad".toList
          ["/usr/sbin/psad".toList, "-i".toList, "eth0".toList],
        Event.send_alert_email "/bin/sh".toList "/bin/mail".toList
          (mail_str_no_pid_file example_header "kmsgsd".toList "root@localhost".toList),
        Event.execve "/usr/sbin/kmsgsd".toList ["/usr/sbin/kmsgsd".toList],
        Event.send_alert_email "/bin/sh".toList "/bin/mail".toList
          (mail_str_no_pid_file example_header "diskmond".toList "root@localhost".toList),
        Event.execve "/usr/sbin/diskmond".toList ["/usr/sbin/diskmond".toList]] ∧
    (main_loop_tick example_header all_dead_tick_sys (example_main_state 0 0 0)).config_mtime =
      200 :=
  ⟨((C13_give_up_ends_the_pass example_header all_dead_tick_sys (example_main_state 2 1 0)
      _ _ _ rfl rfl rfl rfl).2.2.1 (by decide)).1,
    by decide, by decide, by decide, rfl, by decide, rfl, by decide⟩

/-! ### Reading the config file through a buffer of `MAX_LINE_BUF` bytes -/

theorem fgets_take_eq_take_line (s : CStr) :
    ∀ n, (take_line s).1.length ≤ n → fgets_take n s = take_line s := by
  induction s with
  | nil => intro n _; cases n <;> rfl
  | cons c cs ih =>
    intro n h
    by_cases hc : c = '\n'
    · have e : take_line (c :: cs) = ([c], cs) := by rw [take_line, if_pos hc]
      rw [e] at h ⊢
      cases n with
      | zero => simp at h
      | succ m => rw [fgets_take, if_pos hc]
    · have e : take_line (c :: cs) = (c :: (take_line cs).1, (take_line cs).2) := by
        rw [take_line, if_neg hc]
      rw [e] at h ⊢
      cases n with
      | zero => simp at h
      | succ m =>
        simp only [List.length_cons, Nat.add_le_add_iff_right] at h
        rw [fgets_take, if_neg hc, ih m h]

/-- A file whose lines all fit the buffer is read line by line. -/
theorem fgets_loop_eq_split_lines (size : Nat) :
    ∀ (fuel : Nat) (s : CStr), (∀ l ∈ split_lines fuel s, l.length < size) →
      fgets_loop size fuel s = split_lines fuel s := by
  intro fuel
  induction fuel with
  | zero => intro s _; rfl
  | succ n ih =>
    intro s h
    cases s with
    | nil => rfl
    | cons c cs =>
      rw [split_lines] at h ⊢
      have h1 : (take_line (c :: cs)).1.length ≤ size - 1 := by
        have := h _ (List.mem_cons_self _ _)
        omega
      rw [fgets_loop, fgets, fgets_take_eq_take_line (c :: cs) (size - 1) h1]
      simp only
      rw [ih _ (fun l hl => h l (List.mem_cons_of_mem _ hl))]

theorem fgets_lines_eq_file_lines (MAX_LINE_BUF : Nat) (content : CStr)
    (h : ∀ l ∈ file_lines content, l.length < MAX_LINE_BUF) :
    fgets_lines MAX_LINE_BUF content = file_lines content :=
  fgets_loop_eq_split_lines MAX_LINE_BUF (content.length + 1) content h

theorem take_line_append (s : CStr) : (take_line s).1 ++ (take_line s).2 = s := by
  induction s with
  | nil => rfl
  | cons c cs ih =>
    by_cases hc : c = '\n'
    · rw [take_line, if_pos hc]; rfl
    · rw [take_line, if_neg hc]
      simp only [List.cons_append, ih]

theorem take_line_rest_length (c : Char) (cs : CStr) :
    (take_line (c :: cs)).2.length ≤ cs.length := by
  induction cs generalizing c with
  | nil =>
    by_cases hc : c = '\n'
    · rw [take_line, if_pos hc]
    · rw [take_line, if_neg hc]; simp [take_line]
  | cons d ds ih =>
    by_cases hc : c = '\n'
    · rw [take_line, if_pos hc]
    · rw [take_line, if_neg hc]
      simp only
      have := ih d
      simp only [List.length_cons]
      omega

/-- The lines of a file, put together again, are the file: the fuel of
`file_lines` suffices. -/
theorem split_lines_flatten :
    ∀ (fuel : Nat) (s : CStr), s.length < fuel → (split_lines fuel s).flatten = s := by
  intro fuel
  induction fuel with
  | zero => intro s h; omega
  | succ n ih =>
    intro s h
    cases s with
    | nil => rfl
    | cons c cs =>
      rw [split_lines, List.flatten_cons,
        ih _ (by
          have := take_line_rest_length c cs
          simp only [List.length_cons] at h
          omega)]
      exact take_line_append (c :: cs)

theorem file_lines_flatten (content : CStr) : (file_lines content).flatten = content :=
  split_lines_flatten (content.length + 1) content (Nat.lt_succ_self _)

theorem take_line_of_line (body rest : CStr) (h : ∀ c ∈ body, c ≠ '\n') :
    take_line (body ++ '\n' :: rest) = (body ++ ['\n'], rest) := by
  induction body with
  | nil => simp [take_line]
  | cons c cs ih =>
    rw [List.cons_append, take_line, if_neg (h c (List.mem_cons_self _ _)),
      ih (fun x hx => h x (List.mem_cons_of_mem _ hx))]
    rfl

theorem fgets_take_full (a b : CStr) (h : ∀ c ∈ a, c ≠ '\n') :
    fgets_take a.length (a ++ b) = (a, b) := by
  induction a with
  | nil => cases b <;> rfl
  | cons c cs ih =>
    rw [List.cons_append, List.length_cons, fgets_take,
      if_neg (h c (List.mem_cons_self _ _)), ih (fun x hx => h x (List.mem_cons_of_mem _ hx))]

theorem fgets_of_full (size : Nat) (a b : CStr) (hne : a ≠ []) (hl : a.length = size - 1)
    (h : ∀ c ∈ a, c ≠ '\n') : fgets size (a ++ b) = some (a, b) := by
  cases a with
  | nil => exact absurd rfl hne
  | cons c cs =>
    rw [List.cons_append, fgets, ← hl, ← List.cons_append, fgets_take_full (c :: cs) b h]

/-- A line longer than the buffer is read in pieces: the first `fgets` call
returns its first `size - 1` characters and the next call goes on from
there. -/
theorem fgets_loop_of_full (size fuel : Nat) (a b : CStr) (hne : a ≠ [])
    (hl : a.length = size - 1) (h : ∀ c ∈ a, c ≠ '\n') :
    fgets_loop size (fuel + 1) (a ++ b) = a :: fgets_loop size fuel b := by
  rw [fgets_loop, fgets_of_full size a b hne hl h]

/-- A comment line made of `#`, 1022 more characters other than the newline
and, still on the same line, the text `psadCmd /bin/false`: it is one line
of the file and a comment, a buffer of 1024 bytes reads it in two pieces,
and the second piece sets `psadCmd`. -/
theorem long_comment_line_split (pad : CStr) (hlen : pad.length = 1022)
    (hpad : ∀ c ∈ pad, c ≠ '\n') :
    file_lines ('#' :: pad ++ "psadCmd /bin/false\n".toList) =
      ['#' :: pad ++ "psadCmd /bin/false\n".toList] ∧
    is_comment_or_blank ('#' :: pad ++ "psadCmd /bin/false\n".toList) ∧
    fgets_lines 1024 ('#' :: pad ++ "psadCmd /bin/false\n".toList) =
      ['#' :: pad, "psadCmd /bin/false\n".toList] ∧
    parse_config_file 1024 (some ('#' :: pad ++ "psadCmd /bin/false\n".toList)) [] []
        { empty_settings with psadCmd := "/usr/sbin/psad".toList } =
      some { empty_settings with psadCmd := "/bin/false".toList,
                                 psadwatchd_check_interval := 0,
                                 psadwatchd_max_retries := 0 } := by
  have htail : ("psadCmd /bin/false\n".toList).length = 19 := by decide
  have hlen1 : ('#' :: pad ++ "psadCmd /bin/false\n".toList).length + 1 = 1042 + 1 := by
    simp only [List.length_cons, List.length_append, hlen, htail]
  have hnl : ∀ c ∈ '#' :: pad, c ≠ '\n' := by
    intro c hc
    rcases List.mem_cons.mp hc with h | h
    · rw [h]; decide
    · exact hpad c h
  have hcomment : ∀ t : CStr, is_comment_or_blank ('#' :: pad ++ t) := by
    intro t
    refine Or.inl ?_
    rw [List.cons_append, skip_whitespace, if_neg (by decide)]
    rfl
  have hpieces : fgets_lines 1024 ('#' :: pad ++ "psadCmd /bin/false\n".toList) =
      ['#' :: pad, "psadCmd /bin/false\n".toList] := by
    unfold fgets_lines
    rw [hlen1, fgets_loop_of_full 1024 1042 ('#' :: pad) _ (List.cons_ne_nil _ _)
      (by simp only [List.length_cons, hlen]) hnl]
    rfl
  refine ⟨?_, hcomment _, hpieces, ?_⟩
  · have hnl2 : ∀ c ∈ '#' :: (pad ++ "psadCmd /bin/false".toList), c ≠ '\n' := by
      intro c hc
      rcases List.mem_cons.mp hc with h | h
      · rw [h]; decide
      · rcases List.mem_append.mp h with h | h
        · exact hpad c h
        · have htext : ∀ d ∈ "psadCmd /bin/false".toList, d ≠ '\n' := by decide
          exact htext c h
    have e : '#' :: pad ++ "psadCmd /bin/false\n".toList =
        ('#' :: (pad ++ "psadCmd /bin/false".toList)) ++ '\n' :: [] := by
      have e2 : "psadCmd /bin/false\n".toList = "psadCmd /bin/false".toList ++ ['\n'] := by
        decide
      rw [e2, List.cons_append, List.cons_append, List.append_assoc]
    have hlen2 : (('#' :: (pad ++ "psadCmd /bin/false".toList)) ++ '\n' :: []).length + 1 =
        1041 + 2 := by
      rw [← e]; exact hlen1
    unfold file_lines
    rw [e, hlen2, List.cons_append, split_lines, ← List.cons_append,
      take_line_of_line _ [] hnl2]
    rfl
  · unfold parse_config_file
    rw [Option.map_some', hpieces]
    unfold parse_config
    simp only [List.foldl_cons, List.foldl_nil]
    have hc := hcomment []
    rw [List.append_nil] at hc
    rw [parse_config_line_of_comment ('#' :: pad) _ hc]
    decide

/-- C14, as stated, fails on the code (with `MAX_LINE_BUF = 1024`): the file
holds one line, a comment starting with `#`, of 1042 characters; `fgets`
returns it in two pieces, the second of which, `psadCmd /bin/false`, passes
the test of line 472 and sets `psadCmd`. -/
theorem C14_counterexample :
    file_lines long_comment_line = [long_comment_line] ∧
    is_comment_or_blank long_comment_line ∧
    fgets_lines 1024 long_comment_line =
      ['#' :: List.replicate 1022 'x', "psadCmd /bin/false\n".toList] ∧
    is_config_line (skip_whitespace "psadCmd /bin/false\n".toList) = true ∧
    parse_config_file 1024 (some long_comment_line) [] []
        { empty_settings with psadCmd := "/usr/sbin/psad".toList } =
      some { empty_settings with psadCmd := "/bin/false".toList,
                                 psadwatchd_check_interval := 0,
                                 psadwatchd_max_retries := 0 } :=
  have h := long_comment_line_split (List.replicate 1022 'x') (List.length_replicate _ _)
    (fun c hc => by rw [List.eq_of_mem_replicate hc]; decide)
  ⟨h.1, h.2.1, h.2.2.1, by decide, h.2.2.2⟩

/-- C14 (amended): for every config line whose first character after the
leading spaces and tabs is `#`, `;` or the newline ending the line, the loop
body of `parse_config`, given that line, makes no `find_char_var` call and
leaves every variable as it was; so a config file made only of such lines,
each shorter than `MAX_LINE_BUF` so that `fgets` reads it whole, changes none
of the string settings: the settings delivered are those given, with only
the two numbers re-read from their local buffers. -/
theorem C14_comment_and_blank_lines_skipped (MAX_LINE_BUF : Nat) (content : CStr)
    (u1 u2 : CStr) (cfg : Settings) :
    (∀ config_buf v, is_comment_or_blank config_buf → parse_config_line config_buf v = v) ∧
    ((∀ l ∈ file_lines content, l.length < MAX_LINE_BUF ∧ is_comment_or_blank l) →
      fgets_lines MAX_LINE_BUF content = file_lines content ∧
      parse_config_file MAX_LINE_BUF (some content) u1 u2 cfg =
        some { cfg with psadwatchd_check_interval := to_unsigned (atoi u1),
                        psadwatchd_max_retries := to_unsigned (atoi u2) } ∧
      ∀ cfg1, parse_config_file MAX_LINE_BUF (some content) u1 u2 cfg = some cfg1 →
        cfg1.strings = cfg.strings) := by
  refine ⟨fun config_buf v h => parse_config_line_of_comment config_buf v h, ?_⟩
  intro h
  have hl := fgets_lines_eq_file_lines MAX_LINE_BUF content (fun l hl => (h l hl).1)
  have e : parse_config_file MAX_LINE_BUF (some content) u1 u2 cfg =
      some { cfg with psadwatchd_check_interval := to_unsigned (atoi u1),
                      psadwatchd_max_retries := to_unsigned (atoi u2) } := by
    unfold parse_config_file
    simp only [Option.map_some', hl]
    unfold parse_config
    simp only [foldl_parse_config_line_of_comments (file_lines content) _
      (fun l hl => (h l hl).2)]
  refine ⟨hl, e, ?_⟩
  intro cfg1 h1
  rw [e] at h1
  rw [← Option.some.inj h1]
  rfl

/-- C14 at a concrete input: a file of three lines, a comment, a `;` comment
after blanks and an empty line, each shorter than the buffer of 1024 bytes
it is read through, leaves `psadCmd` and `mail_addrs` as they were. -/
theorem C14_witness :
    (∀ l ∈ file_lines "# psadwatchd.conf\n \t; psadCmd /bin/false\n\n".toList,
      l.length < 1024 ∧ is_comment_or_blank l) ∧
    parse_config_file 1024
        (some "# psadwatchd.conf\n \t; psadCmd /bin/false\n\n".toList) [] []
        { empty_settings with psadCmd := "/usr/sbin/psad".toList,
                              mail_addrs := "root@localhost".toList } =
      some { empty_settings with psadCmd := "/usr/sbin/psad".toList,
                                 mail_addrs := "root@localhost".toList,
                                 psadwatchd_check_interval := to_unsigned (atoi []),
                                 psadwatchd_max_retries := to_unsigned (atoi []) } :=
  ⟨by decide,
   ((C14_comment_and_blank_lines_skipped 1024
      "# psadwatchd.conf\n \t; psadCmd /bin/false\n\n".toList [] []
      { empty_settings with psadCmd := "/usr/sbin/psad".toList,
                            mail_addrs := "root@localhost".toList }).2
    (by decide)).2.1⟩

/-- C9 (amended): when the modification time of the config file is unchanged
the reload step changes no setting.  When it has changed, `parse_config` runs
again on the settings in memory and the new time is recorded; for a file
whose lines are each shorter than `MAX_LINE_BUF`, so that `fgets` returns
them whole, every string setting then holds what the lines of the file leave
in its buffer, which is the value it held before when no line of the file
names its key, and a value fixed by the file alone, the same from any prior
value, when a line does; the two numbers are `atoi` of their buffers, filled
from the lines of the file in the same way. -/
theorem C9_reload_replaces_named_settings (MAX_LINE_BUF config_mtime st_mtime : Nat)
    (content : CStr) (u1 u2 : CStr) (cfg : Settings) :
    (st_mtime = config_mtime →
      ∀ file, reload_config_file MAX_LINE_BUF config_mtime st_mtime file u1 u2 cfg =
        some (cfg, config_mtime)) ∧
    (st_mtime ≠ config_mtime → (∀ l ∈ file_lines content, l.length < MAX_LINE_BUF) →
      ∃ cfg1, reload_config_file MAX_LINE_BUF config_mtime st_mtime (some content) u1 u2 cfg =
          some (cfg1, st_mtime) ∧
        cfg1.strings =
          List.zipWith (fun key old => scan_key key (file_lines content) old) string_keys
            cfg.strings ∧
        cfg1.psadwatchd_check_interval =
          to_unsigned
            (atoi (scan_key "PSADWATCHD_CHECK_INTERVAL ".toList (file_lines content) u1)) ∧
        cfg1.psadwatchd_max_retries =
          to_unsigned
            (atoi (scan_key "PSADWATCHD_MAX_RETRIES ".toList (file_lines content) u2))) ∧
    (∀ key old, (∀ l ∈ file_lines content, names_key key l = false) →
      scan_key key (file_lines content) old = old) ∧
    (∀ key old1 old2, (∃ l ∈ file_lines content, names_key key l = true) →
      scan_key key (file_lines content) old1 = scan_key key (file_lines content) old2) := by
  refine ⟨?_, ?_, fun key old h => scan_key_of_no_match key (file_lines content) old h,
    fun key old1 old2 h => scan_key_of_match key (file_lines content) old1 old2 h⟩
  · intro h file
    simp [reload_config_file, reload_config, check_import_config, h]
  · intro h hshort
    obtain ⟨cfg1, e, h1, h2, h3⟩ := parse_config_eq (file_lines content) u1 u2 cfg
    refine ⟨cfg1, ?_, h1, h2, h3⟩
    unfold reload_config_file
    rw [Option.map_some', fgets_lines_eq_file_lines MAX_LINE_BUF content hshort]
    simp [reload_config, check_import_config, h, e]

/-- C9 at a concrete input: a changed file of two lines, both shorter than
the buffer of 1024 bytes, that sets `psadCmd` and nothing else replaces
`psadCmd` and keeps `mailCmd`, and the new `psadCmd` is the same from any
prior value. -/
theorem C9_witness :
    (∀ l ∈ file_lines "# psadwatchd.conf\npsadCmd  /usr/sbin/psad\n".toList, l.length < 1024) ∧
    reload_config_file 1024 100 200
        (some "# psadwatchd.conf\npsadCmd  /usr/sbin/psad\n".toList) [] []
        { empty_settings with psadCmd := "/opt/psad".toList, mailCmd := "/bin/mail".toList } =
      some ({ empty_settings with psadCmd := "/usr/sbin/psad".toList,
                                  mailCmd := "/bin/mail".toList,
                                  psadwatchd_check_interval := 0,
                                  psadwatchd_max_retries := 0 }, 200) ∧
    scan_key "psadCmd ".toList
        (file_lines "# psadwatchd.conf\npsadCmd  /usr/sbin/psad\n".toList) "/opt/psad".toList =
      scan_key "psadCmd ".toList
        (file_lines "# psadwatchd.conf\npsadCmd  /usr/sbin/psad\n".toList) [] :=
  ⟨by decide, by decide,
   (C9_reload_replaces_named_settings 1024 100 200
      "# psadwatchd.conf\npsadCmd  /usr/sbin/psad\n".toList [] []
      empty_settings).2.2.2 "psadCmd ".toList "/opt/psad".toList []
      ⟨"psadCmd  /usr/sbin/psad\n".toList, by decide, by decide⟩⟩

end Psadwatchd




